import Mathlib

/-!
Verification of the gnome-vpn-sso NetworkManager service against its
natural-language specification.

The development shallowly embeds the parts of the C sources that the
claims are about:

* `src/service/nm-vpn-sso-service.c` — the connection state machine, the
  tunnel (openconnect) output parser, and the SSO/tunnel process exit
  callbacks.  Stateful code is embedded as pure functions on an explicit
  record of the service's private fields (`NmVpnSsoServicePriv`); side
  effects on the outside world (spawning processes, D-Bus failure
  reports, asynchronous cache operations) are recorded as an emitted
  list of `Action`s.  Process spawning is assumed to succeed; the claims
  under study are about the decision logic on process output and exit
  status, not about spawn failures.
* `src/service/credential-cache.c` (file backend) — serialization,
  regex-based JSON field extraction, store / lookup / clear.  The
  backing store is embedded as a map from the key string
  "gateway:protocol" to file contents; the SHA-256 hashing of that key
  used to build the file name is modelled as the identity on the key
  (hash collisions are assumed away).

C byte strings are embedded as `List Nat` with each element a byte
value; a byte value of 0 never occurs inside a live C string, and
theorems that depend on byte-level faithfulness carry explicit validity
hypotheses.
-/

namespace VpnSso

/-- Byte strings: a C `char *` viewed as its list of byte values. -/
abbrev Str := List Nat

/-- Build a byte string from an ASCII Lean string literal. -/
def bytes (s : String) : Str := s.data.map Char.toNat

/-- ASCII decimal digit test, as used by the C `*p >= '0' && *p <= '9'` checks. -/
def isDigitB (c : Nat) : Bool := 48 ≤ c && c ≤ 57

/-- Digit-or-dot test for the address scanners (`[0-9.]`). -/
def isDigitDotB (c : Nat) : Bool := isDigitB c || c == 46

/-- ASCII whitespace class, as matched by `\s` in GRegex and by `g_ascii_isspace`. -/
def wsB (c : Nat) : Bool := c == 32 || c == 9 || c == 10 || c == 13 || c == 12 || c == 11

/-- ASCII lower-casing of a byte (`g_ascii_tolower`). -/
def toLowerB (c : Nat) : Nat := if 65 ≤ c ∧ c ≤ 90 then c + 32 else c

/-- Does `s` begin with `pat`?  (The C code's `strncmp`-style prefix test.) -/
def strStarts : Str → Str → Bool
  | _, [] => true
  | [], _ :: _ => false
  | a :: s, b :: pat => a == b && strStarts s pat

/-- Does `s` contain `pat` as a contiguous substring?  (`strstr != NULL`.) -/
def strContains : Str → Str → Bool
  | [], pat => strStarts [] pat
  | a :: s, pat => strStarts (a :: s) pat || strContains s pat

/-- The suffix of `s` beginning at the first occurrence of `pat`, if any.
This is C's `strstr`: the returned value is a pointer into `s`. -/
def strstrSuffix : Str → Str → Option Str
  | [], pat => if strStarts [] pat then some [] else none
  | a :: s, pat => if strStarts (a :: s) pat then some (a :: s) else strstrSuffix s pat

/-- Split a byte string on every occurrence of byte `b` (`g_strsplit` with a
one-byte separator: empty fields are kept). -/
def splitOnByte (b : Nat) : Str → List Str
  | [] => [[]]
  | c :: r =>
    let rest := splitOnByte b r
    if c == b then [] :: rest
    else
      match rest with
      | h :: t => (c :: h) :: t
      | [] => [[c]]

/-- Strip leading and trailing ASCII whitespace (`g_strstrip`). -/
def stripWs (s : Str) : Str := ((s.dropWhile wsB).reverse.dropWhile wsB).reverse

/-- Numeric value of a digit-byte run (most significant first). -/
def digitsVal (ds : Str) : Nat := ds.foldl (fun a d => a * 10 + (d - 48)) 0

/-- Decimal digit bytes of a natural number, most significant first; the
extra fuel argument keeps the recursion structural. -/
def natToDecAux : Nat → Nat → Str
  | 0, _ => []
  | f + 1, n => if n < 10 then [48 + n] else natToDecAux f (n / 10) ++ [48 + n % 10]

/-- Decimal digit bytes of a natural number, most significant first. -/
def natToDec (n : Nat) : Str := natToDecAux (n + 1) n

/-- Decimal rendering of a `gint64` value (`%" G_GINT64_FORMAT "`). -/
def intToDec (i : Int) : Str :=
  if i < 0 then 45 :: natToDec (-i).toNat else natToDec i.toNat

/-- Value of a decimal digit run as parsed by `g_ascii_strtoll`, including its
clamping of out-of-range values to `G_MAXINT64`. -/
def strtollDigits (ds : Str) : Int :=
  if (digitsVal ds : Int) > 2 ^ 63 - 1 then 2 ^ 63 - 1 else (digitsVal ds : Int)

/-- C `atoi`: optional leading whitespace and sign, then a maximal digit run. -/
def atoiB (s : Str) : Int :=
  match s.dropWhile wsB with
  | 45 :: r => -(digitsVal (r.takeWhile isDigitB) : Int)
  | 43 :: r => (digitsVal (r.takeWhile isDigitB) : Int)
  | r => (digitsVal (r.takeWhile isDigitB) : Int)

/-! ### The tunnel output parser (`parse_openconnect_output`)

`nm-vpn-sso-service.c` lines 784-960.  The parser mutates the private
fields `tundev`, `ip4_address`, `ip4_gateway`, `ip4_dns`, and — for the
GlobalProtect portal-userauthcookie — `sso_cookie` and `usergroup`,
additionally re-persisting the credential cache.  Here the fields live in
`NmVpnSsoServicePriv` and the cache store becomes an emitted `Action`. -/

/-- Connection states of the service (the `VpnConnectionState` enum). -/
inductive VpnConnectionState where
  | idle
  | authenticating
  | connecting
  | connected
  | disconnecting
  | failed
deriving DecidableEq, Repr

/-- Failure codes reported via `nm_vpn_service_plugin_failure`. -/
inductive FailureKind where
  | loginFailed
  | connectFailed
deriving DecidableEq, Repr

/-- External effects the service performs, recorded instead of executed. -/
inductive Action where
  | clearCache (gateway protocol : Option Str)
  | startSsoSpawn
  | startOpenconnectSpawn
  | reportFailure (k : FailureKind)
  | reportDisconnect
  | lookupCache (gateway protocol : Str)
  | storeCache
  | scheduleIp4Report
deriving DecidableEq, Repr

/-- The private data of the service object (`struct _NmVpnSsoServicePrivate`).
Process handles are abstracted to liveness booleans (`pid != 0` together with
an installed child watch). -/
structure NmVpnSsoServicePriv where
  state : VpnConnectionState
  gateway : Option Str
  protocol : Option Str
  username : Option Str
  usergroup : Option Str
  extra_args : Option Str
  cache_hours : Int
  external_browser : Bool
  sso_cookie : Option Str
  sso_fingerprint : Option Str
  sso_active : Bool
  sso_output : Option Str
  oc_active : Bool
  tundev : Option Str
  ip4_address : Option Str
  ip4_netmask : Option Str
  ip4_gateway : Option Str
  ip4_dns : List Str
  using_cached_credentials : Bool
deriving DecidableEq, Repr

/-- The protocol string `"globalprotect"`. -/
def protoGP : Str := bytes "globalprotect"

/-- The protocol string `"anyconnect"`. -/
def protoAC : Str := bytes "anyconnect"

/-- A service object fresh out of `nm_vpn_sso_service_init`: zeroed private
data with `state = VPN_STATE_IDLE`. -/
def initPriv : NmVpnSsoServicePriv :=
  { state := .idle
    gateway := none
    protocol := none
    username := none
    usergroup := none
    extra_args := none
    cache_hours := 0
    external_browser := false
    sso_cookie := none
    sso_fingerprint := none
    sso_active := false
    sso_output := none
    oc_active := false
    tundev := none
    ip4_address := none
    ip4_netmask := none
    ip4_gateway := none
    ip4_dns := []
    using_cached_credentials := false }

/-- Scan for the first position where `"tun"` is followed by a digit and
return `"tun"` plus the digit run (the `while ((p = strstr (p, "tun")))`
loop of `parse_openconnect_output`). -/
def scanTunDevice : Str → Option Str
  | [] => none
  | a :: s =>
    if strStarts (a :: s) (bytes "tun") then
      match (a :: s).drop 3 with
      | d :: rest =>
        if isDigitB d then some (bytes "tun" ++ d :: rest.takeWhile isDigitB)
        else scanTunDevice s
      | [] => scanTunDevice s
    else scanTunDevice s

/-- Extract the digits-and-dots token right after the first occurrence of
`pat`, accepted only when it begins with a digit and contains exactly three
dots.  This is the shared shape of the `" as "` (address) and
`"Connected to "` (gateway) scanners. -/
def extractIpAfter (pat : Str) (buf : Str) : Option Str :=
  match strstrSuffix buf pat with
  | none => none
  | some suf =>
    match suf.drop pat.length with
    | d :: rest =>
      if isDigitB d then
        let addr := d :: rest.takeWhile isDigitDotB
        if (addr.countP (fun c => c == 46)) == 3 then some addr else none
      else none
    | [] => none

/-- The tunnel device section: assign `tundev` only while it is unset. -/
def parseTundevSection (p : NmVpnSsoServicePriv) (buf : Str) : NmVpnSsoServicePriv :=
  match p.tundev with
  | some _ => p
  | none =>
    match scanTunDevice buf with
    | some dev => { p with tundev := some dev }
    | none => p

/-- The assigned-address section (`" as X.X.X.X"`): first match wins. -/
def parseAddressSection (p : NmVpnSsoServicePriv) (buf : Str) : NmVpnSsoServicePriv :=
  match p.ip4_address with
  | some _ => p
  | none =>
    match extractIpAfter (bytes " as ") buf with
    | some addr => { p with ip4_address := some addr }
    | none => p

/-- The gateway-address section (`"Connected to X.X.X.X:port"`): first match wins. -/
def parseGatewaySection (p : NmVpnSsoServicePriv) (buf : Str) : NmVpnSsoServicePriv :=
  match p.ip4_gateway with
  | some _ => p
  | none =>
    match extractIpAfter (bytes "Connected to ") buf with
    | some addr => { p with ip4_gateway := some addr }
    | none => p

/-- Cookie text captured after `portal-userauthcookie=`: up to the first
newline, carriage return, space, or end of buffer. -/
def portalCookieToken (s : Str) : Str :=
  s.takeWhile (fun c => !(c == 10 || c == 13 || c == 32))

/-- The GlobalProtect portal-userauthcookie section: a nonempty capture that
does not begin with `empty` (ASCII case-insensitive) and differs from the held
cookie replaces the cookie, forces the usergroup to
`portal:portal-userauthcookie`, and re-persists the credential cache. -/
def parsePortalCookieSection (p : NmVpnSsoServicePriv) (buf : Str) :
    NmVpnSsoServicePriv × List Action :=
  if p.protocol = some protoGP then
    match strstrSuffix buf (bytes "portal-userauthcookie=") with
    | some suf =>
      let rest := suf.drop 22
      let ck := portalCookieToken rest
      if ck ≠ [] ∧ ¬strStarts (rest.map toLowerB) (bytes "empty") then
        if p.sso_cookie ≠ some ck then
          ({ p with sso_cookie := some ck
                    usergroup := some (bytes "portal:portal-userauthcookie") },
           [Action.storeCache])
        else (p, [])
      else (p, [])
    | none => (p, [])
  else (p, [])

/-- Process one `"DNS server"` occurrence: find `"address "` at or after it,
skip further spaces, and accept a digit-led digits-and-dots token with exactly
three dots, deduplicated against the accumulator. -/
def dnsProcessOne (acc : List Str) (suf : Str) : List Str :=
  match strstrSuffix suf (bytes "address ") with
  | none => acc
  | some asuf =>
    match (asuf.drop 8).dropWhile (fun c => c == 32) with
    | d :: rest =>
      if isDigitB d then
        let addr := d :: rest.takeWhile isDigitDotB
        if (addr.countP (fun c => c == 46)) == 3 then
          if addr ∈ acc then acc else acc ++ [addr]
        else acc
      else acc
    | [] => acc

/-- The DNS-server loop: every occurrence of `"DNS server"` is processed. -/
def dnsLoop (acc : List Str) : Str → List Str
  | [] => acc
  | a :: s =>
    if strStarts (a :: s) (bytes "DNS server") then
      dnsLoop (dnsProcessOne acc (a :: s)) s
    else dnsLoop acc s

/-- The DNS section of the parser. -/
def parseDnsSection (p : NmVpnSsoServicePriv) (buf : Str) : NmVpnSsoServicePriv :=
  { p with ip4_dns := dnsLoop p.ip4_dns buf }

/-- The complete output parser `parse_openconnect_output`
(`nm-vpn-sso-service.c` lines 784-960), run on one output chunk. -/
def parse_openconnect_output (p : NmVpnSsoServicePriv) (buf : Str) :
    NmVpnSsoServicePriv × List Action :=
  let p1 := parseTundevSection p buf
  let p2 := parseAddressSection p1 buf
  let p3 := parseGatewaySection p2 buf
  let r := parsePortalCookieSection p3 buf
  (parseDnsSection r.1 buf, r.2)

/-- The stdout/stderr watch callback body for the tunnel process
(`openconnect_stdout_cb` / `openconnect_stderr_cb`): parse the chunk, then
mark the connection `connected` and schedule the IP4 configuration report
only when the chunk contains the `"Configured as"` marker. -/
def openconnect_output_cb (p : NmVpnSsoServicePriv) (buf : Str) :
    NmVpnSsoServicePriv × List Action :=
  let r := parse_openconnect_output p buf
  if strContains buf (bytes "Configured as") then
    if r.1.state ≠ .connected then
      ({ r.1 with state := .connected }, r.2 ++ [Action.scheduleIp4Report])
    else r
  else r

/-- Feed a sequence of output chunks through the parser. -/
def runParse (p : NmVpnSsoServicePriv) : List Str → NmVpnSsoServicePriv
  | [] => p
  | b :: bs => runParse (parse_openconnect_output p b).1 bs

/-- Feed a sequence of output chunks through the full stdout/stderr callback. -/
def runOutputCb (p : NmVpnSsoServicePriv) : List Str → NmVpnSsoServicePriv
  | [] => p
  | b :: bs => runOutputCb (openconnect_output_cb p b).1 bs

/-- Modelled from the spec: a dotted quad in the sense of the specification's
words — four dot-separated nonempty numeric octets.  Used only to compare the
specified validation against the validation the code performs. -/
def isDottedQuad (s : Str) : Bool :=
  let parts := splitOnByte 46 s
  parts.length == 4 && parts.all (fun q => !q.isEmpty && q.all isDigitB)

/-- The validation the parser actually performs on an address candidate: it
begins with a digit, consists only of digits and dots, and contains exactly
three dots. -/
def codeValidIp (v : Str) : Bool :=
  match v with
  | [] => false
  | d :: _ => isDigitB d && v.all isDigitDotB && ((v.countP (fun c => c == 46)) == 3)

/-! ### SSO output parsing and the connection state machine

`nm-vpn-sso-service.c`: `parse_sso_cookie` (lines 303-388),
`sso_child_watch_cb` (390-489), `start_sso_authentication` (656-778),
`openconnect_child_watch_cb` (1177-1248), `cleanup_connection`
(1428-1534), `connect_to_vpn` (1536-1569), `real_connect` (1575-1624),
`real_disconnect` (1636-1647), `credential_lookup_cb` (164-224). -/

/-- Exit status of a child process as examined through `WIFEXITED` /
`WEXITSTATUS`: either a normal exit with a code, or termination by signal. -/
inductive ExitStatus where
  | exited (code : Nat)
  | signaled (sig : Nat)
deriving DecidableEq, Repr

/-- Take the cookie text up to the first newline, or all of it when no
newline follows (the `strchr (cookie_start, '\n')` pattern). -/
def takeToNewline (s : Str) : Str := s.takeWhile (fun c => c ≠ 10)

/-- Strip one pair of surrounding single quotes, as `parse_sso_cookie` does to
undo `shlex.quote`: only when the first byte is `'` and the length exceeds one
and the last byte is `'`. -/
def stripShellQuotes (s : Str) : Str :=
  match s with
  | 39 :: rest =>
    if rest ≠ [] ∧ (39 :: rest).getLast? = some 39 then rest.dropLast
    else 39 :: rest
  | _ => s

/-- GlobalProtect branch of `parse_sso_cookie`: first `COOKIE=`, with shell
quote stripping, then the `prelogin-cookie=` fallback; the stored cookie is
only replaced when a marker is found. -/
def parseSsoCookieGP (p : NmVpnSsoServicePriv) (output : Str) : NmVpnSsoServicePriv :=
  match strstrSuffix output (bytes "COOKIE=") with
  | some suf =>
    { p with sso_cookie := some (stripShellQuotes (takeToNewline (suf.drop 7))) }
  | none =>
    match strstrSuffix output (bytes "prelogin-cookie=") with
    | some suf => { p with sso_cookie := some (takeToNewline (suf.drop 16)) }
    | none => p

/-- AnyConnect branch of `parse_sso_cookie`: split on newlines, strip each
line, and record `COOKIE=` / `FINGERPRINT=` values (later lines overwrite). -/
def parseSsoCookieAC (p : NmVpnSsoServicePriv) (output : Str) : NmVpnSsoServicePriv :=
  (splitOnByte 10 output).foldl
    (fun q line =>
      let l := stripWs line
      if strStarts l (bytes "COOKIE=") then { q with sso_cookie := some (l.drop 7) }
      else if strStarts l (bytes "FINGERPRINT=") then
        { q with sso_fingerprint := some (l.drop 12) }
      else q)
    p

/-- The protocol dispatch of `parse_sso_cookie`. -/
def parse_sso_cookie (p : NmVpnSsoServicePriv) (output : Str) : NmVpnSsoServicePriv :=
  if p.protocol = some protoGP then parseSsoCookieGP p output
  else if p.protocol = some protoAC then parseSsoCookieAC p output
  else p

/-- Release of all connection resources (`cleanup_connection`): processes are
signalled and watches removed, the held cookie, fingerprint and parsed tunnel
configuration are dropped, and the state returns to idle.  The configuration
fields and `using_cached_credentials` are left as they are, exactly as in the
source. -/
def cleanup_connection (p : NmVpnSsoServicePriv) : NmVpnSsoServicePriv :=
  { p with
    sso_active := false
    oc_active := false
    sso_output := none
    sso_cookie := none
    sso_fingerprint := none
    tundev := none
    ip4_address := none
    ip4_netmask := none
    ip4_gateway := none
    ip4_dns := []
    state := .idle }

/-- Launch of the SSO helper (`start_sso_authentication`): an output buffer is
created, then for a known protocol the helper is spawned and the state becomes
`authenticating`; an unknown protocol reports a connect failure and returns
with no process started. -/
def start_sso_authentication (p : NmVpnSsoServicePriv) : NmVpnSsoServicePriv × List Action :=
  let p1 := { p with sso_output := some [] }
  if p1.protocol = some protoGP ∨ p1.protocol = some protoAC then
    ({ p1 with sso_active := true, state := .authenticating }, [Action.startSsoSpawn])
  else (p1, [Action.reportFailure .connectFailed])

/-- Launch of the tunnel binary (`start_openconnect`), with the cookie written
to its stdin; callers set `state` beforehand, exactly as in the source. -/
def start_openconnect (p : NmVpnSsoServicePriv) : NmVpnSsoServicePriv × List Action :=
  ({ p with oc_active := true }, [Action.startOpenconnectSpawn])

/-- What `credential_lookup_cb` reads from a cache hit. -/
structure CredView where
  username : Option Str
  cookie : Option Str
  fingerprint : Option Str
  usergroup : Option Str
deriving DecidableEq, Repr

/-- Outcome delivered to `credential_lookup_cb`. -/
inductive LookupCbResult where
  | cacheError
  | finished (c : Option CredView)
deriving DecidableEq, Repr

/-- The cache-lookup completion callback (`credential_lookup_cb`): an error or
a miss falls through to SSO (only a miss clears the cached-credentials flag);
a hit with a nonempty cookie adopts the cached fields, marks the attempt as
using cached credentials, and goes straight to the tunnel. -/
def credential_lookup_cb (p : NmVpnSsoServicePriv) (res : LookupCbResult) :
    NmVpnSsoServicePriv × List Action :=
  match res with
  | .cacheError => start_sso_authentication p
  | .finished c =>
    match c with
    | some cv =>
      match cv.cookie with
      | some ck =>
        if ck ≠ [] then
          let p1 := { p with
            sso_cookie := some ck
            sso_fingerprint :=
              match cv.fingerprint with
              | some f => some f
              | none => p.sso_fingerprint
            username :=
              match p.username, cv.username with
              | none, some u => some u
              | _, _ => p.username
            usergroup :=
              match cv.usergroup with
              | some ug => some ug
              | none => p.usergroup
            using_cached_credentials := true
            state := .connecting }
          start_openconnect p1
        else start_sso_authentication { p with using_cached_credentials := false }
      | none => start_sso_authentication { p with using_cached_credentials := false }
    | none => start_sso_authentication { p with using_cached_credentials := false }

/-- The SSO child-exit callback (`sso_child_watch_cb`): on exit status zero the
accumulated output is parsed; a recovered cookie is stored in the cache (when
nonempty), the cached-credentials flag is cleared, and the tunnel is started;
otherwise the attempt fails as a login failure and is cleaned up. -/
def sso_child_watch_cb (p : NmVpnSsoServicePriv) (status : ExitStatus) :
    NmVpnSsoServicePriv × List Action :=
  let out := p.sso_output.getD []
  let p0 := { p with sso_active := false }
  if status = .exited 0 then
    let p1 := parse_sso_cookie p0 out
    match p1.sso_cookie with
    | some ck =>
      let storeActs : List Action := if ck = [] then [] else [Action.storeCache]
      let r := start_openconnect
        { p1 with using_cached_credentials := false, state := .connecting }
      ({ r.1 with sso_output := none }, storeActs ++ r.2)
    | none => (cleanup_connection p1, [Action.reportFailure .loginFailed])
  else (cleanup_connection p0, [Action.reportFailure .loginFailed])

/-- The tunnel child-exit callback (`openconnect_child_watch_cb`): within an
active attempt, a nonzero normal exit while using cached credentials clears
the cache entry and the held token and retries via SSO; a nonzero normal exit
on fresh credentials is a terminal connect failure; any other exit is treated
as a disconnect. -/
def openconnect_child_watch_cb (p : NmVpnSsoServicePriv) (status : ExitStatus) :
    NmVpnSsoServicePriv × List Action :=
  let p0 := { p with oc_active := false }
  if p0.state = .connected ∨ p0.state = .connecting then
    match status with
    | .exited c =>
      if c ≠ 0 then
        if p0.using_cached_credentials then
          let p1 := { p0 with
            sso_cookie := none
            sso_fingerprint := none
            using_cached_credentials := false
            state := .authenticating }
          let r := start_sso_authentication p1
          (r.1, Action.clearCache p0.gateway p0.protocol :: r.2)
        else (cleanup_connection p0, [Action.reportFailure .connectFailed])
      else (cleanup_connection p0, [Action.reportDisconnect])
    | .signaled _ => (cleanup_connection p0, [Action.reportDisconnect])
  else (cleanup_connection p0, [])

/-- The data items handed over by NetworkManager for one connect request. -/
structure NMSettingVpnData where
  gateway : Option Str
  protocol : Option Str
  username : Option Str
  usergroup : Option Str
  extra_args : Option Str
  cache_hours : Option Str
  external_browser : Option Str
deriving DecidableEq, Repr

/-- Configuration validation and lookup kickoff (`connect_to_vpn`): an absent
or empty gateway or protocol fails with a configuration error; otherwise the
asynchronous cache lookup is started and the call succeeds. -/
def connect_to_vpn (p : NmVpnSsoServicePriv) : NmVpnSsoServicePriv × Bool × List Action :=
  match p.gateway with
  | none => (p, false, [])
  | some g =>
    if g = [] then (p, false, [])
    else
      match p.protocol with
      | none => (p, false, [])
      | some pr =>
        if pr = [] then (p, false, [])
        else (p, true, [Action.lookupCache g pr])

/-- The plugin connect entry point (`real_connect`): each supplied data item
overwrites the corresponding private field (absent items leave the previous
value), then `connect_to_vpn` runs.  No busy or state check is performed. -/
def real_connect (p : NmVpnSsoServicePriv) (d : NMSettingVpnData) :
    NmVpnSsoServicePriv × Bool × List Action :=
  let p1 := { p with
    gateway := match d.gateway with | some v => some v | none => p.gateway
    protocol := match d.protocol with | some v => some v | none => p.protocol
    username := match d.username with | some v => some v | none => p.username
    usergroup := match d.usergroup with | some v => some v | none => p.usergroup
    extra_args := match d.extra_args with | some v => some v | none => p.extra_args
    cache_hours := match d.cache_hours with | some v => atoiB v | none => p.cache_hours
    external_browser := d.external_browser = some (bytes "yes") }
  connect_to_vpn p1

/-- SSO stdout watch callback: append the chunk to the output accumulator. -/
def sso_stdout_cb (p : NmVpnSsoServicePriv) (buf : Str) : NmVpnSsoServicePriv :=
  { p with sso_output := p.sso_output.map (· ++ buf) }

/-- Events delivered to the service by the run loop. -/
inductive VpnEvent where
  | lookupDone (res : LookupCbResult)
  | ssoExit (status : ExitStatus)
  | ocExit (status : ExitStatus)
  | ocChunk (buf : Str)
  | ssoChunk (buf : Str)
  | connectReq (d : NMSettingVpnData)
  | disconnectReq
deriving DecidableEq, Repr

/-- One run-loop dispatch of the service. -/
def serviceStep (p : NmVpnSsoServicePriv) (e : VpnEvent) : NmVpnSsoServicePriv × List Action :=
  match e with
  | .lookupDone r => credential_lookup_cb p r
  | .ssoExit s => sso_child_watch_cb p s
  | .ocExit s => openconnect_child_watch_cb p s
  | .ocChunk b => openconnect_output_cb p b
  | .ssoChunk b => (sso_stdout_cb p b, [])
  | .connectReq d =>
    let r := real_connect p d
    (r.1, r.2.2)
  | .disconnectReq => (cleanup_connection p, [])

/-- Does this event report a cache hit (a cached credential with a nonempty
cookie), the only way `using_cached_credentials` can become true? -/
def isCacheHitEvent : VpnEvent → Bool
  | .lookupDone (.finished (some cv)) =>
    match cv.cookie with
    | some ck => !ck.isEmpty
    | none => false
  | _ => false

/-- Does this event trigger the cached-credential fallback (a nonzero normal
tunnel exit during an active attempt that was using cached credentials)? -/
def isFallbackStep (p : NmVpnSsoServicePriv) : VpnEvent → Bool
  | .ocExit (.exited c) =>
    c != 0 && (p.state == .connected || p.state == .connecting)
      && p.using_cached_credentials
  | _ => false

/-- Number of cached-credential fallback retries triggered along a run. -/
def fallbackRetryCount (p : NmVpnSsoServicePriv) : List VpnEvent → Nat
  | [] => 0
  | e :: es =>
    (if isFallbackStep p e then 1 else 0) + fallbackRetryCount (serviceStep p e).1 es

/-- Number of cache-hit events in an event sequence. -/
def cacheHitCount (es : List VpnEvent) : Nat := es.countP (fun e => isCacheHitEvent e)

/-! ### The credential cache, file backend (`credential-cache.c`)

Serialization (`serialize_credential`), the regex-based field extraction
(`parse_json_string`, `parse_json_int64`), deserialization
(`deserialize_credential`), and the store / lookup / clear operations.
The backing store maps the key string "gateway:protocol" to file
contents; `get_cache_filename` hashes that key with SHA-256 to build a
file name, which is modelled as keying directly on the string (the hash
is injective on all inputs that matter here). -/

/-- Escape of one byte under `g_strescape` with no exceptions: the named
control escapes, backslash and double quote, and a three-digit octal escape
for all other bytes below 32 or of 127 and above. -/
def escChar (c : Nat) : Str :=
  if c = 8 then [92, 98]
  else if c = 12 then [92, 102]
  else if c = 10 then [92, 110]
  else if c = 13 then [92, 114]
  else if c = 9 then [92, 116]
  else if c = 11 then [92, 118]
  else if c = 92 then [92, 92]
  else if c = 34 then [92, 34]
  else if c < 32 ∨ 127 ≤ c then [92, 48 + c / 64 % 8, 48 + c / 8 % 8, 48 + c % 8]
  else [c]

/-- `g_strescape` over a byte string. -/
def escStr : Str → Str
  | [] => []
  | c :: s => escChar c ++ escStr s

/-- Octal digit test for `g_strcompress` (`'0'` through `'7'`). -/
def isOctB (c : Nat) : Bool := 48 ≤ c && c ≤ 55

/-- The named escapes of `g_strcompress`: an escaped byte that is not an
octal digit maps back to its control character, or passes through. -/
def escNamed (d : Nat) : Nat :=
  if d = 98 then 8
  else if d = 102 then 12
  else if d = 110 then 10
  else if d = 114 then 13
  else if d = 116 then 9
  else if d = 118 then 11
  else d

/-- `g_strcompress`: undo escapes, reading up to three octal digits, mapping
the named escapes back, passing other escaped bytes through, and dropping a
trailing lone backslash. -/
def compressStrAux : Nat → Str → Str
  | 0, _ => []
  | _ + 1, [] => []
  | f + 1, c :: s =>
    if c = 92 then
      match s with
      | [] => []
      | d :: s2 =>
        if isOctB d then
          match s2 with
          | [] => [d - 48]
          | d2 :: s3 =>
            if isOctB d2 then
              match s3 with
              | [] => [(d - 48) * 8 + (d2 - 48)]
              | d3 :: s4 =>
                if isOctB d3 then
                  ((d - 48) * 64 + (d2 - 48) * 8 + (d3 - 48)) :: compressStrAux f s4
                else ((d - 48) * 8 + (d2 - 48)) :: compressStrAux f s3
            else (d - 48) :: compressStrAux f s2
        else escNamed d :: compressStrAux f s2
    else c :: compressStrAux f s

/-- `g_strcompress` over a byte string (each consuming step is charged one
unit of fuel, and a step consumes at least one byte, so `length + 1` fuel
always suffices). -/
def compressStr (s : Str) : Str := compressStrAux (s.length + 1) s

/-- One optional serialized field: `,\n  "name": "` then the escaped value and
a closing quote; nothing when the value is absent. -/
def optJsonField (lead : Str) (v : Option Str) : Str :=
  match v with
  | none => []
  | some s => lead ++ escStr s ++ [34]

/-- The serializer `serialize_credential` (file backend, lines 939-979).
Gateway and protocol are interpolated raw — `%s` with no escaping — while the
optional string fields go through `g_strescape`. -/
def serialize_credential (gateway protocol : Str) (username cookie fingerprint usergroup : Option Str)
    (created_at expires_at : Int) : Str :=
  bytes "\x7b\n  \"gateway\": \"" ++ gateway
    ++ bytes "\",\n  \"protocol\": \"" ++ protocol
    ++ bytes "\",\n  \"created_at\": " ++ intToDec created_at
    ++ bytes ",\n  \"expires_at\": " ++ intToDec expires_at
    ++ optJsonField (bytes ",\n  \"username\": \"") username
    ++ optJsonField (bytes ",\n  \"cookie\": \"") cookie
    ++ optJsonField (bytes ",\n  \"fingerprint\": \"") fingerprint
    ++ optJsonField (bytes ",\n  \"usergroup\": \"") usergroup
    ++ bytes "\n\x7d"

/-- After the fixed part `"key"` of a field pattern: optional whitespace, a
colon, optional whitespace, then an opening quote (the `\s*:\s*"` tail of the
`parse_json_string` pattern). -/
def afterKeyQuote (s : Str) : Bool :=
  match s.dropWhile wsB with
  | 58 :: s2 =>
    match s2.dropWhile wsB with
    | 34 :: _ => true
    | _ => false
  | _ => false

/-- After the fixed part `"key"` of an integer field pattern: optional
whitespace, a colon, optional whitespace, then a digit (the `\s*:\s*([0-9]+)`
tail of the `parse_json_int64` pattern). -/
def afterKeyInt (s : Str) : Bool :=
  match s.dropWhile wsB with
  | 58 :: s2 =>
    match s2.dropWhile wsB with
    | d :: _ => isDigitB d
    | [] => false
  | _ => false

/-- Does the string-field pattern `"key"\s*:\s*"` match at the head of `s`? -/
def strFieldPat (key : Str) (s : Str) : Bool :=
  strStarts s (34 :: key ++ [34]) && afterKeyQuote (s.drop (key.length + 2))

/-- Does the integer-field pattern `"key"\s*:\s*([0-9]+)` match at the head of `s`? -/
def intFieldPat (key : Str) (s : Str) : Bool :=
  strStarts s (34 :: key ++ [34]) && afterKeyInt (s.drop (key.length + 2))

/-- Leftmost match: the suffix of `s` at the first position where `pm` holds,
mirroring `g_regex_match` finding the leftmost regex match. -/
def findFieldSuffix (pm : Str → Bool) : Str → Option Str
  | [] => if pm [] then some [] else none
  | a :: s => if pm (a :: s) then some (a :: s) else findFieldSuffix pm s

/-- Scan a string value up to its closing unescaped quote, skipping one byte
after each backslash, exactly as the hand-written quote scan of
`parse_json_string`; `none` when no closing quote is found. -/
def scanJsonValue : Str → Option Str
  | [] => none
  | c :: rest =>
    if c = 34 then some []
    else if c = 92 then
      match rest with
      | [] => none
      | b :: rest2 => (scanJsonValue rest2).map (fun v => 92 :: b :: v)
    else (scanJsonValue rest).map (fun v => c :: v)

/-- The field value region after a successful string-field pattern match: skip
the fixed part, the whitespace, the colon, more whitespace, and the opening
quote. -/
def strFieldValueRegion (key : Str) (t : Str) : Option Str :=
  match (t.drop (key.length + 2)).dropWhile wsB with
  | 58 :: s2 =>
    match s2.dropWhile wsB with
    | 34 :: v => some v
    | _ => none
  | _ => none

/-- `parse_json_string` (lines 984-1014): leftmost pattern match, then the
quote scan, then `g_strcompress` of the escaped text. -/
def parse_json_string (json : Str) (key : Str) : Option Str :=
  match findFieldSuffix (strFieldPat key) json with
  | none => none
  | some t =>
    match strFieldValueRegion key t with
    | some v => (scanJsonValue v).map compressStr
    | none => none

/-- The captured digit run after a successful integer-field pattern match. -/
def intFieldDigits (key : Str) (t : Str) : Str :=
  match (t.drop (key.length + 2)).dropWhile wsB with
  | 58 :: s2 => (s2.dropWhile wsB).takeWhile isDigitB
  | _ => []

/-- `parse_json_int64` (lines 1019-1031): leftmost pattern match with the
greedy `([0-9]+)` capture fed to `g_ascii_strtoll`; 0 when the pattern is
absent. -/
def parse_json_int64 (json : Str) (key : Str) : Int :=
  match findFieldSuffix (intFieldPat key) json with
  | none => 0
  | some t => strtollDigits (intFieldDigits key t)

/-- A cached credential record (`VpnSsoCachedCredential`). -/
structure VpnSsoCachedCredential where
  gateway : Option Str
  protocol : Option Str
  username : Option Str
  cookie : Option Str
  fingerprint : Option Str
  usergroup : Option Str
  created_at : Int
  expires_at : Int
deriving DecidableEq, Repr

/-- Decidable equality of lookup results, used to evaluate the cache model
on concrete inputs. -/
instance instDecEqExceptLookup : DecidableEq (Except Unit (Option VpnSsoCachedCredential)) :=
  fun a b =>
    match a, b with
    | .ok x, .ok y =>
      match decEq x y with
      | .isTrue h => .isTrue (congrArg Except.ok h)
      | .isFalse h => .isFalse (fun hh => h (Except.ok.inj hh))
    | .error x, .error y => .isTrue (by cases x; cases y; rfl)
    | .ok _, .error _ => .isFalse (fun hh => Except.noConfusion hh)
    | .error _, .ok _ => .isFalse (fun hh => Except.noConfusion hh)

/-- `deserialize_credential` (lines 1036-1054): `NULL` for empty contents,
otherwise a record of the per-field extractions. -/
def deserialize_credential (json : Str) : Option VpnSsoCachedCredential :=
  if json = [] then none
  else some
    { gateway := parse_json_string json (bytes "gateway")
      protocol := parse_json_string json (bytes "protocol")
      username := parse_json_string json (bytes "username")
      cookie := parse_json_string json (bytes "cookie")
      fingerprint := parse_json_string json (bytes "fingerprint")
      usergroup := parse_json_string json (bytes "usergroup")
      created_at := parse_json_int64 json (bytes "created_at")
      expires_at := parse_json_int64 json (bytes "expires_at") }

/-- The backing store: per-key file contents (`~/.cache/gnome-vpn-sso/<hash>`). -/
def FileStore := Str → Option Str

/-- The key a cache entry is filed under: `get_cache_filename` hashes the
string "gateway:protocol"; the hash is modelled as the identity. -/
def cacheKey (gateway protocol : Str) : Str := gateway ++ 58 :: protocol

/-- The default cache lifetime, `VPN_SSO_DEFAULT_CACHE_DURATION_HOURS`. -/
def defaultCacheHours : Int := 8

/-- `vpn_sso_credential_cache_store_async` (file backend, lines 1117-1192),
with `now` the sampled wall-clock second: a non-positive `cache_hours` falls
back to the default of 8 hours, timestamps are computed once, and the
serialized record replaces the file for the key. -/
def vpn_sso_credential_cache_store (st : FileStore) (gateway protocol : Str)
    (username cookie fingerprint usergroup : Option Str) (cache_hours : Int)
    (now : Int) : FileStore :=
  let hours := if cache_hours ≤ 0 then defaultCacheHours else cache_hours
  let json := serialize_credential gateway protocol username cookie fingerprint usergroup
    now (now + hours * 3600)
  fun k => if k = cacheKey gateway protocol then some json else st k

/-- `vpn_sso_credential_cache_lookup_async` (file backend, lines 1213-1286):
a missing file is a clean miss, unparsable contents are an error, an entry
with a strictly positive `expires_at` at or before `now` is expired — it is
unlinked and reported as a miss — and anything else is returned. -/
def vpn_sso_credential_cache_lookup (st : FileStore) (gateway protocol : Str)
    (now : Int) : Except Unit (Option VpnSsoCachedCredential) × FileStore :=
  match st (cacheKey gateway protocol) with
  | none => (.ok none, st)
  | some contents =>
    match deserialize_credential contents with
    | none => (.error (), st)
    | some cred =>
      if cred.expires_at > 0 ∧ now ≥ cred.expires_at then
        (.ok none, fun k => if k = cacheKey gateway protocol then none else st k)
      else (.ok (some cred), st)

/-- `vpn_sso_credential_cache_clear_async` (file backend, lines 1307-1331):
unlink the entry's file. -/
def vpn_sso_credential_cache_clear (st : FileStore) (gateway protocol : Str) : FileStore :=
  fun k => if k = cacheKey gateway protocol then none else st k

/-- The empty backing store. -/
def emptyStore : FileStore := fun _ => none

/-- Project the cookie out of a lookup result, for evaluating the cache model
on concrete inputs. -/
def lookupResultCookie (r : Except Unit (Option VpnSsoCachedCredential)) :
    Option (Option Str) :=
  match r with
  | .ok (some c) => some c.cookie
  | _ => none

/-- Quote discipline: every double-quote byte in the string is immediately
preceded by a backslash byte.  This holds for every `g_strescape` output and
vacuously for quote-free strings, and is what stops a value from faking a
JSON field pattern. -/
def QE (s : Str) : Prop := ∀ a b : Str, s = a ++ 34 :: b → ∃ a2, a = a2 ++ [92]

/-- A region `A` shields a pattern in front of `B`: the pattern matcher fails
at every position strictly inside `A` of the string `A ++ B`. -/
def Shield (pm : Str → Bool) (A B : Str) : Prop :=
  ∀ a2, a2 ≠ [] → a2 <:+ A → pm (a2 ++ B) = false

/-! ### Token memory at release time

`vpn_sso_cached_credential_free` (credential-cache.c, both backends) runs
`memset (cookie, 0, strlen (cookie))` before `g_free`; `cleanup_connection`
(nm-vpn-sso-service.c line 1517) and the credential-rejected fallback in
`openconnect_child_watch_cb` (line 1230) release the same kind of token with
`g_clear_pointer (&priv->sso_cookie, g_free)` — a plain free.  Each release
site is embedded as the function from the buffer contents to the bytes still
present in that memory at the moment `g_free` runs. -/

/-- Bytes left in the cookie buffer when `vpn_sso_cached_credential_free`
frees it: `memset` has overwritten `strlen` many bytes with zero. -/
def credentialFreeCookieBytes (cookie : Str) : Str := cookie.map (fun _ => 0)

/-- Bytes left in the `sso_cookie` buffer when `cleanup_connection` frees it:
`g_clear_pointer (&priv->sso_cookie, g_free)` writes nothing. -/
def cleanupReleaseCookieBytes (cookie : Str) : Str := cookie

/-- Bytes left in the `sso_cookie` buffer when the credential-rejected
fallback of `openconnect_child_watch_cb` frees it: the same plain
`g_clear_pointer` with `g_free`. -/
def fallbackReleaseCookieBytes (cookie : Str) : Str := cookie

/-- Is every byte of a released buffer zero? -/
def allZeroBytes (s : Str) : Bool := s.all (fun c => c == 0)

/-! ### SSO launcher event sources (claim C6)

`start_sso_authentication` installs exactly three run-loop sources for the
helper: the stdout watch, the stderr watch and the child watch (lines
762-773).  `vpn_sso_ac_authenticate_async` in `ac-backend.c` connects a
cancellation handler that force-exits the helper and starts an asynchronous
communicate, but installs no timer source; the constant
`AC_SSO_TIMEOUT_SECONDS` (ac-backend.c line 41) is referenced nowhere. -/

/-- Run-loop sources attached on behalf of a spawned SSO helper. -/
inductive SsoWatchSource where
  | stdoutWatch
  | stderrWatch
  | childWatch
  | timeoutTimer (seconds : Nat)
deriving DecidableEq, Repr

/-- Is this source a timer? -/
def SsoWatchSource.isTimer : SsoWatchSource → Bool
  | .timeoutTimer _ => true
  | _ => false

/-- The sources `start_sso_authentication` installs after a successful spawn. -/
def startSsoAuthenticationSources : List SsoWatchSource :=
  [.stdoutWatch, .stderrWatch, .childWatch]

/-- The timer sources `vpn_sso_ac_authenticate_async` installs: none — the
only teardown path is the cancellation handler. -/
def acAuthenticateTimerSources : List SsoWatchSource := []

/-- The constant `AC_SSO_TIMEOUT_SECONDS` from ac-backend.c line 41,
documented in ac-backend.h as "The operation will timeout after 5 minutes if
not completed." -/
def acSsoTimeoutSeconds : Nat := 300

/-! ### Concrete instances used by counterexamples and witnesses -/

/-- The specification's example "Configured as" output chunk. -/
def chunkConfigured : Str := bytes "Configured as 10.10.5.4"

/-- The specification's example "Connected to" output chunk. -/
def chunkConnected : Str := bytes "Connected to 203.0.113.9:443"

/-- A service mid-attempt: connecting over GlobalProtect, fields still unset. -/
def connectingPriv : NmVpnSsoServicePriv :=
  { initPriv with state := .connecting, protocol := some protoGP }

/-- A service whose tunnel configuration fields are already assigned. -/
def presetPriv : NmVpnSsoServicePriv :=
  { connectingPriv with
    tundev := some (bytes "tun0")
    ip4_address := some (bytes "1.1.1.1")
    ip4_gateway := some (bytes "2.2.2.2") }

/-- A service with a tunnel attempt in progress on cached credentials. -/
def busyPriv : NmVpnSsoServicePriv :=
  { initPriv with
    state := .connecting
    gateway := some (bytes "old.example.com")
    protocol := some protoGP
    sso_cookie := some (bytes "heldtoken")
    oc_active := true
    using_cached_credentials := true }

/-- A second connect request arriving while `busyPriv` is in progress. -/
def secondRequest : NMSettingVpnData :=
  { gateway := some (bytes "new.example.org")
    protocol := some protoAC
    username := none
    usergroup := none
    extra_args := none
    cache_hours := none
    external_browser := none }

/-- A gateway string carrying a JSON field injection. -/
def injectionGateway : Str := bytes "a\", \"cookie\": \"evil"

/-- The store after caching the token `realtoken` for the injection gateway. -/
def injectionStore : FileStore :=
  vpn_sso_credential_cache_store emptyStore injectionGateway protoGP
    none (some (bytes "realtoken")) none none 1 1000

/-- A persisted record whose `expires_at` field is explicitly zero. -/
def zeroExpiryRecord : Str := bytes "\x7b\"expires_at\": 0\x7d"

/-- A store holding the zero-expiry record under the key for gateway `g`,
protocol `p`. -/
def zeroExpiryStore : FileStore :=
  fun k => if k = cacheKey (bytes "g") (bytes "p") then some zeroExpiryRecord else none

/-- A store holding an already expired record: stored at time 0 with a one
hour lifetime. -/
def expiredStore : FileStore :=
  vpn_sso_credential_cache_store emptyStore (bytes "g") (bytes "p")
    none (some (bytes "t")) none none 1 0

/-! ## Theorems -/

/-! ### Parser bookkeeping lemmas -/

theorem parseTundevSection_state (p : NmVpnSsoServicePriv) (b : Str) :
    (parseTundevSection p b).state = p.state := by
  unfold parseTundevSection; repeat' split
  all_goals rfl

theorem parseAddressSection_state (p : NmVpnSsoServicePriv) (b : Str) :
    (parseAddressSection p b).state = p.state := by
  unfold parseAddressSection; repeat' split
  all_goals rfl

theorem parseGatewaySection_state (p : NmVpnSsoServicePriv) (b : Str) :
    (parseGatewaySection p b).state = p.state := by
  unfold parseGatewaySection; repeat' split
  all_goals rfl

theorem parsePortalCookieSection_state (p : NmVpnSsoServicePriv) (b : Str) :
    (parsePortalCookieSection p b).1.state = p.state := by
  unfold parsePortalCookieSection; repeat' split
  all_goals (try rfl)
  all_goals (dsimp only; split_ifs <;> rfl)

theorem parseDnsSection_state (p : NmVpnSsoServicePriv) (b : Str) :
    (parseDnsSection p b).state = p.state := rfl

theorem parse_openconnect_output_state (p : NmVpnSsoServicePriv) (b : Str) :
    (parse_openconnect_output p b).1.state = p.state := by
  unfold parse_openconnect_output
  rw [parseDnsSection_state, parsePortalCookieSection_state, parseGatewaySection_state,
    parseAddressSection_state, parseTundevSection_state]

theorem parseTundevSection_uc (p : NmVpnSsoServicePriv) (b : Str) :
    (parseTundevSection p b).using_cached_credentials = p.using_cached_credentials := by
  unfold parseTundevSection; repeat' split
  all_goals rfl

theorem parseAddressSection_uc (p : NmVpnSsoServicePriv) (b : Str) :
    (parseAddressSection p b).using_cached_credentials = p.using_cached_credentials := by
  unfold parseAddressSection; repeat' split
  all_goals rfl

theorem parseGatewaySection_uc (p : NmVpnSsoServicePriv) (b : Str) :
    (parseGatewaySection p b).using_cached_credentials = p.using_cached_credentials := by
  unfold parseGatewaySection; repeat' split
  all_goals rfl

theorem parsePortalCookieSection_uc (p : NmVpnSsoServicePriv) (b : Str) :
    (parsePortalCookieSection p b).1.using_cached_credentials = p.using_cached_credentials := by
  unfold parsePortalCookieSection; repeat' split
  all_goals (try rfl)
  all_goals (dsimp only; split_ifs <;> rfl)

theorem parse_openconnect_output_uc (p : NmVpnSsoServicePriv) (b : Str) :
    (parse_openconnect_output p b).1.using_cached_credentials = p.using_cached_credentials := by
  unfold parse_openconnect_output
  show (parsePortalCookieSection _ b).1.using_cached_credentials = _
  rw [parsePortalCookieSection_uc, parseGatewaySection_uc, parseAddressSection_uc,
    parseTundevSection_uc]

/-- C6: the SSO authentication launcher never installs a timeout source.
The constant `AC_SSO_TIMEOUT_SECONDS` is 300 (five minutes) and the header
documents a five-minute bound, but `start_sso_authentication` attaches only
the stdout, stderr and child watches, and `vpn_sso_ac_authenticate_async`
attaches no timer at all, so a helper process that never exits is awaited
indefinitely instead of being forcibly terminated at the timeout. -/
theorem c6_no_timeout_source_installed :
    startSsoAuthenticationSources.all (fun s => !s.isTimer) = true ∧
    acAuthenticateTimerSources = [] ∧
    acSsoTimeoutSeconds = 300 := by
  refine ⟨by decide, rfl, rfl⟩

/-- C8 counterexample: when `cleanup_connection` releases the live
connection's `sso_cookie`, the buffer still holds the token bytes — nothing
has overwritten them with zero — refuting the claim that every release of
token memory zeroes it first. -/
theorem c8_counterexample_cleanup_not_zeroed :
    cleanupReleaseCookieBytes (bytes "heldtoken") = bytes "heldtoken" ∧
    allZeroBytes (cleanupReleaseCookieBytes (bytes "heldtoken")) = false := by
  exact ⟨rfl, by decide⟩

/-- C8 amended: only `vpn_sso_cached_credential_free` zeroes the token memory
before releasing it; the live connection's `sso_cookie` is released both in
`cleanup_connection` and in the credential-rejected fallback by a plain
`g_free` that leaves the token bytes in place. -/
theorem c8_amended_zeroing_sites (ck : Str) :
    allZeroBytes (credentialFreeCookieBytes ck) = true ∧
    cleanupReleaseCookieBytes ck = ck ∧
    fallbackReleaseCookieBytes ck = ck := by
  refine ⟨?_, rfl, rfl⟩
  simp [allZeroBytes, credentialFreeCookieBytes, List.all_eq_true]

/-- C10: a persisted record whose `expires_at` deserializes to 0 (absent or
unparsable) is never treated as expired: for every current time, lookup
returns the deserialized credential rather than none and leaves the store
untouched, because the expiry check requires `expires_at > 0`. -/
theorem c10_zero_expiry_never_expires (st : FileStore) (g p contents : Str) (now : Int)
    (hst : st (cacheKey g p) = some contents) (hne : contents ≠ [])
    (hexp : parse_json_int64 contents (bytes "expires_at") = 0) :
    ∃ cred, deserialize_credential contents = some cred ∧
      vpn_sso_credential_cache_lookup st g p now = (Except.ok (some cred), st) := by
  have hdes : deserialize_credential contents = some
      { gateway := parse_json_string contents (bytes "gateway")
        protocol := parse_json_string contents (bytes "protocol")
        username := parse_json_string contents (bytes "username")
        cookie := parse_json_string contents (bytes "cookie")
        fingerprint := parse_json_string contents (bytes "fingerprint")
        usergroup := parse_json_string contents (bytes "usergroup")
        created_at := parse_json_int64 contents (bytes "created_at")
        expires_at := parse_json_int64 contents (bytes "expires_at") } := by
    unfold deserialize_credential
    rw [if_neg hne]
  refine ⟨_, hdes, ?_⟩
  unfold vpn_sso_credential_cache_lookup
  rw [hst]
  dsimp only
  rw [hdes]
  dsimp only
  rw [if_neg]
  simp only [hexp]
  intro h
  exact absurd h.1 (by norm_num)

/-- C10 witness: the concrete record holding only `"expires_at": 0` is
returned at time 99999. -/
theorem c10_witness :
    ∃ cred, deserialize_credential zeroExpiryRecord = some cred ∧
      vpn_sso_credential_cache_lookup zeroExpiryStore (bytes "g") (bytes "p") 99999 =
        (Except.ok (some cred), zeroExpiryStore) :=
  c10_zero_expiry_never_expires zeroExpiryStore (bytes "g") (bytes "p") zeroExpiryRecord 99999
    (by decide) (by decide) (by decide)

/-- C2 counterexample: the claim quantifies over every entry with
`expires_at ≤ now`, but an entry whose `expires_at` deserializes to 0 — here
an explicit `"expires_at": 0` record looked up at time 5 — is returned
instead of none, and the entry stays in the backing store. -/
theorem c2_counterexample_zero_expiry :
    parse_json_int64 zeroExpiryRecord (bytes "expires_at") ≤ 5 ∧
    (vpn_sso_credential_cache_lookup zeroExpiryStore (bytes "g") (bytes "p") 5).1 ≠
      Except.ok none ∧
    ((vpn_sso_credential_cache_lookup zeroExpiryStore (bytes "g") (bytes "p") 5).2
      (cacheKey (bytes "g") (bytes "p"))).isSome = true := by
  decide

/-- C2 amended: for every key, lookup on an entry whose `expires_at` is
strictly positive and at or before the current time returns none and removes
the entry from the backing store, so every later lookup for that key also
returns none (idempotent expiry); an entry whose `expires_at` deserializes to
0 is exempt from the expiry check. -/
theorem c2_expired_entry_removed (st : FileStore) (g p contents : Str) (now : Int)
    (hst : st (cacheKey g p) = some contents) (hne : contents ≠ [])
    (hpos : 0 < parse_json_int64 contents (bytes "expires_at"))
    (hle : parse_json_int64 contents (bytes "expires_at") ≤ now) :
    (vpn_sso_credential_cache_lookup st g p now).1 = Except.ok none ∧
    (vpn_sso_credential_cache_lookup st g p now).2 (cacheKey g p) = none ∧
    ∀ now2, (vpn_sso_credential_cache_lookup
      (vpn_sso_credential_cache_lookup st g p now).2 g p now2).1 = Except.ok none := by
  have hdes : deserialize_credential contents = some
      { gateway := parse_json_string contents (bytes "gateway")
        protocol := parse_json_string contents (bytes "protocol")
        username := parse_json_string contents (bytes "username")
        cookie := parse_json_string contents (bytes "cookie")
        fingerprint := parse_json_string contents (bytes "fingerprint")
        usergroup := parse_json_string contents (bytes "usergroup")
        created_at := parse_json_int64 contents (bytes "created_at")
        expires_at := parse_json_int64 contents (bytes "expires_at") } := by
    unfold deserialize_credential
    rw [if_neg hne]
  have hlook : vpn_sso_credential_cache_lookup st g p now =
      (Except.ok none, fun k => if k = cacheKey g p then none else st k) := by
    unfold vpn_sso_credential_cache_lookup
    rw [hst]
    dsimp only
    rw [hdes]
    dsimp only
    rw [if_pos ⟨hpos, hle⟩]
  refine ⟨by rw [hlook], by rw [hlook]; simp, ?_⟩
  intro now2
  rw [hlook]
  unfold vpn_sso_credential_cache_lookup
  simp

/-- C2 witness: a record stored at time 0 with a one-hour lifetime has
expired by time 3600 and is removed by the lookup. -/
theorem c2_witness :
    (vpn_sso_credential_cache_lookup expiredStore (bytes "g") (bytes "p") 3600).1 =
      Except.ok none ∧
    (vpn_sso_credential_cache_lookup expiredStore (bytes "g") (bytes "p") 3600).2
      (cacheKey (bytes "g") (bytes "p")) = none ∧
    ∀ now2, (vpn_sso_credential_cache_lookup
      (vpn_sso_credential_cache_lookup expiredStore (bytes "g") (bytes "p") 3600).2
      (bytes "g") (bytes "p") now2).1 = Except.ok none :=
  c2_expired_entry_removed expiredStore (bytes "g") (bytes "p")
    (serialize_credential (bytes "g") (bytes "p") none (some (bytes "t")) none none 0 3600)
    3600 (by decide) (by decide) (by decide) (by decide)

/-- C5 counterexample: a connect request arriving while `busyPriv` has a
tunnel process active is not rejected as busy — it succeeds, starts a fresh
cache lookup, and overwrites the in-progress attempt's configuration
fields. -/
theorem c5_counterexample_busy_not_rejected :
    (real_connect busyPriv secondRequest).2.1 = true ∧
    (real_connect busyPriv secondRequest).2.2 =
      [Action.lookupCache (bytes "new.example.org") (bytes "anyconnect")] ∧
    (real_connect busyPriv secondRequest).1.gateway = some (bytes "new.example.org") ∧
    busyPriv.gateway = some (bytes "old.example.com") ∧
    busyPriv.oc_active = true := by
  decide

/-- C5 amended: the service performs no busy check.  A connect request with a
nonempty gateway and protocol is accepted regardless of the current state: it
leaves the state field, the process liveness flags, the held cookie and the
cached-credentials flag unchanged, but overwrites the configuration fields
with the new request's values and starts a new cache lookup. -/
theorem c5_connect_never_rejected_as_busy (p : NmVpnSsoServicePriv) (d : NMSettingVpnData)
    (g pr : Str) (hg : d.gateway = some g) (hgne : g ≠ [])
    (hp : d.protocol = some pr) (hpne : pr ≠ []) :
    (real_connect p d).2.1 = true ∧
    (real_connect p d).2.2 = [Action.lookupCache g pr] ∧
    (real_connect p d).1.state = p.state ∧
    (real_connect p d).1.oc_active = p.oc_active ∧
    (real_connect p d).1.sso_active = p.sso_active ∧
    (real_connect p d).1.sso_cookie = p.sso_cookie ∧
    (real_connect p d).1.using_cached_credentials = p.using_cached_credentials ∧
    (real_connect p d).1.gateway = some g ∧
    (real_connect p d).1.protocol = some pr := by
  unfold real_connect connect_to_vpn
  rw [hg, hp]
  simp [hgne, hpne]

/-- C5 witness: the amended statement instantiated on the busy service and
the concrete second request. -/
theorem c5_witness :
    (real_connect busyPriv secondRequest).2.1 = true ∧
    (real_connect busyPriv secondRequest).2.2 =
      [Action.lookupCache (bytes "new.example.org") (bytes "anyconnect")] ∧
    (real_connect busyPriv secondRequest).1.state = busyPriv.state ∧
    (real_connect busyPriv secondRequest).1.oc_active = busyPriv.oc_active ∧
    (real_connect busyPriv secondRequest).1.sso_active = busyPriv.sso_active ∧
    (real_connect busyPriv secondRequest).1.sso_cookie = busyPriv.sso_cookie ∧
    (real_connect busyPriv secondRequest).1.using_cached_credentials =
      busyPriv.using_cached_credentials ∧
    (real_connect busyPriv secondRequest).1.gateway = some (bytes "new.example.org") ∧
    (real_connect busyPriv secondRequest).1.protocol = some (bytes "anyconnect") :=
  c5_connect_never_rejected_as_busy busyPriv secondRequest
    (bytes "new.example.org") (bytes "anyconnect") rfl (by decide) rfl (by decide)

/-! ### Field-framing lemmas for the output parser -/

theorem parseTundevSection_keep (p : NmVpnSsoServicePriv) (b : Str) (v : Str)
    (h : p.tundev = some v) : (parseTundevSection p b).tundev = some v := by
  unfold parseTundevSection
  rw [h]
  exact h

theorem parseAddressSection_tundev (p : NmVpnSsoServicePriv) (b : Str) :
    (parseAddressSection p b).tundev = p.tundev := by
  unfold parseAddressSection; repeat' split
  all_goals rfl

theorem parseGatewaySection_tundev (p : NmVpnSsoServicePriv) (b : Str) :
    (parseGatewaySection p b).tundev = p.tundev := by
  unfold parseGatewaySection; repeat' split
  all_goals rfl

theorem parsePortalCookieSection_tundev (p : NmVpnSsoServicePriv) (b : Str) :
    (parsePortalCookieSection p b).1.tundev = p.tundev := by
  unfold parsePortalCookieSection; repeat' split
  all_goals (try rfl)
  all_goals (dsimp only; split_ifs <;> rfl)

theorem parseTundevSection_address (p : NmVpnSsoServicePriv) (b : Str) :
    (parseTundevSection p b).ip4_address = p.ip4_address := by
  unfold parseTundevSection; repeat' split
  all_goals rfl

theorem parseAddressSection_keep (p : NmVpnSsoServicePriv) (b : Str) (v : Str)
    (h : p.ip4_address = some v) : (parseAddressSection p b).ip4_address = some v := by
  unfold parseAddressSection
  rw [h]
  exact h

theorem parseGatewaySection_address (p : NmVpnSsoServicePriv) (b : Str) :
    (parseGatewaySection p b).ip4_address = p.ip4_address := by
  unfold parseGatewaySection; repeat' split
  all_goals rfl

theorem parsePortalCookieSection_address (p : NmVpnSsoServicePriv) (b : Str) :
    (parsePortalCookieSection p b).1.ip4_address = p.ip4_address := by
  unfold parsePortalCookieSection; repeat' split
  all_goals (try rfl)
  all_goals (dsimp only; split_ifs <;> rfl)

theorem parseTundevSection_gateway (p : NmVpnSsoServicePriv) (b : Str) :
    (parseTundevSection p b).ip4_gateway = p.ip4_gateway := by
  unfold parseTundevSection; repeat' split
  all_goals rfl

theorem parseAddressSection_gateway (p : NmVpnSsoServicePriv) (b : Str) :
    (parseAddressSection p b).ip4_gateway = p.ip4_gateway := by
  unfold parseAddressSection; repeat' split
  all_goals rfl

theorem parseGatewaySection_keep (p : NmVpnSsoServicePriv) (b : Str) (v : Str)
    (h : p.ip4_gateway = some v) : (parseGatewaySection p b).ip4_gateway = some v := by
  unfold parseGatewaySection
  rw [h]
  exact h

theorem parsePortalCookieSection_gateway (p : NmVpnSsoServicePriv) (b : Str) :
    (parsePortalCookieSection p b).1.ip4_gateway = p.ip4_gateway := by
  unfold parsePortalCookieSection; repeat' split
  all_goals (try rfl)
  all_goals (dsimp only; split_ifs <;> rfl)

theorem parse_openconnect_output_tundev_keep (p : NmVpnSsoServicePriv) (b : Str) (v : Str)
    (h : p.tundev = some v) : (parse_openconnect_output p b).1.tundev = some v := by
  show (parseDnsSection (parsePortalCookieSection
    (parseGatewaySection (parseAddressSection (parseTundevSection p b) b) b) b).1 b).tundev = some v
  show (parsePortalCookieSection
    (parseGatewaySection (parseAddressSection (parseTundevSection p b) b) b) b).1.tundev = some v
  rw [parsePortalCookieSection_tundev, parseGatewaySection_tundev, parseAddressSection_tundev]
  exact parseTundevSection_keep p b v h

theorem parse_openconnect_output_address_keep (p : NmVpnSsoServicePriv) (b : Str) (v : Str)
    (h : p.ip4_address = some v) : (parse_openconnect_output p b).1.ip4_address = some v := by
  show (parsePortalCookieSection
    (parseGatewaySection (parseAddressSection (parseTundevSection p b) b) b) b).1.ip4_address = some v
  rw [parsePortalCookieSection_address, parseGatewaySection_address]
  exact parseAddressSection_keep _ b v (by rw [parseTundevSection_address]; exact h)

theorem parse_openconnect_output_gateway_keep (p : NmVpnSsoServicePriv) (b : Str) (v : Str)
    (h : p.ip4_gateway = some v) : (parse_openconnect_output p b).1.ip4_gateway = some v := by
  show (parsePortalCookieSection
    (parseGatewaySection (parseAddressSection (parseTundevSection p b) b) b) b).1.ip4_gateway = some v
  rw [parsePortalCookieSection_gateway]
  exact parseGatewaySection_keep _ b v
    (by rw [parseAddressSection_gateway, parseTundevSection_gateway]; exact h)

/-- C9: once the parser has assigned the tunnel device name, the IPv4
address, or the gateway address, no later output chunk changes that field —
each of the three scanners runs only while its field is still unset. -/
theorem c9_first_match_wins (chunks : List Str) (p : NmVpnSsoServicePriv) (v : Str) :
    (p.tundev = some v → (runParse p chunks).tundev = some v) ∧
    (p.ip4_address = some v → (runParse p chunks).ip4_address = some v) ∧
    (p.ip4_gateway = some v → (runParse p chunks).ip4_gateway = some v) := by
  induction chunks generalizing p with
  | nil => exact ⟨fun h => h, fun h => h, fun h => h⟩
  | cons b bs ih =>
    refine ⟨fun h => ?_, fun h => ?_, fun h => ?_⟩
    · exact (ih _).1 (parse_openconnect_output_tundev_keep p b v h)
    · exact (ih _).2.1 (parse_openconnect_output_address_keep p b v h)
    · exact (ih _).2.2 (parse_openconnect_output_gateway_keep p b v h)

/-- C9 witness: a service with all three fields assigned processes a chunk
carrying a different device, address and gateway, and keeps its fields. -/
theorem c9_witness :
    (runParse presetPriv [bytes "Using tun7, Connected to 9.9.9.9:443 as 8.8.8.8"]).tundev =
      some (bytes "tun0") ∧
    (runParse presetPriv [bytes "Using tun7, Connected to 9.9.9.9:443 as 8.8.8.8"]).ip4_address =
      some (bytes "1.1.1.1") ∧
    (runParse presetPriv [bytes "Using tun7, Connected to 9.9.9.9:443 as 8.8.8.8"]).ip4_gateway =
      some (bytes "2.2.2.2") :=
  ⟨(c9_first_match_wins _ presetPriv (bytes "tun0")).1 rfl,
   (c9_first_match_wins _ presetPriv (bytes "1.1.1.1")).2.1 rfl,
   (c9_first_match_wins _ presetPriv (bytes "2.2.2.2")).2.2 rfl⟩

/-- C3: on the specification's example output, the parser recovers IPv4
address 10.10.5.4 and gateway 203.0.113.9 in either chunk order; a chunk
containing only the "Connected to" marker leaves the connection unmarked, and
in general no chunk lacking the "Configured as" marker ever changes the
connection state. -/
theorem c3_configured_marker_gates_connected :
    ((runOutputCb connectingPriv [chunkConfigured, chunkConnected]).ip4_address =
        some (bytes "10.10.5.4") ∧
      (runOutputCb connectingPriv [chunkConfigured, chunkConnected]).ip4_gateway =
        some (bytes "203.0.113.9") ∧
      (runOutputCb connectingPriv [chunkConfigured, chunkConnected]).state = .connected) ∧
    ((runOutputCb connectingPriv [chunkConnected, chunkConfigured]).ip4_address =
        some (bytes "10.10.5.4") ∧
      (runOutputCb connectingPriv [chunkConnected, chunkConfigured]).ip4_gateway =
        some (bytes "203.0.113.9") ∧
      (runOutputCb connectingPriv [chunkConnected, chunkConfigured]).state = .connected) ∧
    (runOutputCb connectingPriv [chunkConnected]).state = .connecting ∧
    (∀ (p : NmVpnSsoServicePriv) (c : Str),
      strContains c (bytes "Configured as") = false →
      (openconnect_output_cb p c).1.state = p.state) := by
  refine ⟨by decide, by decide, by decide, ?_⟩
  intro p c h
  unfold openconnect_output_cb
  rw [h]
  simp [parse_openconnect_output_state]

/-- C3 witness: the no-marker conjunct applied to the concrete "Connected to"
chunk on the connecting service. -/
theorem c3_witness :
    (openconnect_output_cb connectingPriv chunkConnected).1.state = connectingPriv.state :=
  c3_configured_marker_gates_connected.2.2.2 connectingPriv chunkConnected (by decide)

/-! ### The validation the address scanners perform (claim C7) -/

theorem extractIpAfter_valid (pat buf v : Str) (h : extractIpAfter pat buf = some v) :
    codeValidIp v = true := by
  unfold extractIpAfter at h
  rcases hss : strstrSuffix buf pat with _ | suf
  · rw [hss] at h; exact absurd h (by simp)
  rw [hss] at h
  dsimp only at h
  rcases hdr : suf.drop pat.length with _ | ⟨d, rest⟩
  · rw [hdr] at h; exact absurd h (by simp)
  rw [hdr] at h
  dsimp only at h
  by_cases hd : isDigitB d = true
  · rw [if_pos hd] at h
    by_cases hc : ((d :: rest.takeWhile isDigitDotB).countP (fun c => c == 46)) == 3
    · rw [if_pos hc] at h
      have hv : v = d :: rest.takeWhile isDigitDotB := by
        cases h; rfl
      subst hv
      simp only [codeValidIp, List.all_cons, Bool.and_eq_true, List.all_eq_true]
      refine ⟨⟨hd, ?_, ?_⟩, hc⟩
      · simp [isDigitDotB, hd]
      · intro x hx
        exact List.mem_takeWhile_imp hx
    · rw [if_neg (by simpa using hc)] at h
      exact absurd h (by simp)
  · rw [if_neg hd] at h
    exact absurd h (by simp)

theorem dnsProcessOne_mem (acc : List Str) (suf : Str) (v : Str)
    (h : v ∈ dnsProcessOne acc suf) : v ∈ acc ∨ codeValidIp v = true := by
  unfold dnsProcessOne at h
  rcases hss : strstrSuffix suf (bytes "address ") with _ | asuf
  · rw [hss] at h; exact Or.inl h
  rw [hss] at h
  dsimp only at h
  rcases hdr : (asuf.drop 8).dropWhile (fun c => c == 32) with _ | ⟨d, rest⟩
  · rw [hdr] at h; exact Or.inl h
  rw [hdr] at h
  dsimp only at h
  by_cases hd : isDigitB d = true
  · rw [if_pos hd] at h
    by_cases hc : ((d :: rest.takeWhile isDigitDotB).countP (fun c => c == 46)) == 3
    · rw [if_pos hc] at h
      by_cases hm : (d :: rest.takeWhile isDigitDotB) ∈ acc
      · rw [if_pos hm] at h; exact Or.inl h
      · rw [if_neg hm] at h
        rcases List.mem_append.1 h with hv | hv
        · exact Or.inl hv
        · right
          have hv2 : v = d :: rest.takeWhile isDigitDotB := by
            simpa using hv
          subst hv2
          simp only [codeValidIp, List.all_cons, Bool.and_eq_true, List.all_eq_true]
          refine ⟨⟨hd, ?_, ?_⟩, hc⟩
          · simp [isDigitDotB, hd]
          · intro x hx
            exact List.mem_takeWhile_imp hx
    · rw [if_neg (by simpa using hc)] at h; exact Or.inl h
  · rw [if_neg hd] at h; exact Or.inl h

theorem dnsLoop_mem (s : Str) (acc : List Str) (v : Str)
    (h : v ∈ dnsLoop acc s) : v ∈ acc ∨ codeValidIp v = true := by
  induction s generalizing acc with
  | nil => exact Or.inl h
  | cons a s ih =>
    unfold dnsLoop at h
    by_cases hm : strStarts (a :: s) (bytes "DNS server") = true
    · rw [if_pos hm] at h
      rcases ih _ h with h2 | h2
      · exact dnsProcessOne_mem _ _ _ h2
      · exact Or.inr h2
    · rw [if_neg hm] at h
      exact ih _ h

theorem parseTundevSection_dns (p : NmVpnSsoServicePriv) (b : Str) :
    (parseTundevSection p b).ip4_dns = p.ip4_dns := by
  unfold parseTundevSection; repeat' split
  all_goals rfl

theorem parseAddressSection_dns (p : NmVpnSsoServicePriv) (b : Str) :
    (parseAddressSection p b).ip4_dns = p.ip4_dns := by
  unfold parseAddressSection; repeat' split
  all_goals rfl

theorem parseGatewaySection_dns (p : NmVpnSsoServicePriv) (b : Str) :
    (parseGatewaySection p b).ip4_dns = p.ip4_dns := by
  unfold parseGatewaySection; repeat' split
  all_goals rfl

theorem parsePortalCookieSection_dns (p : NmVpnSsoServicePriv) (b : Str) :
    (parsePortalCookieSection p b).1.ip4_dns = p.ip4_dns := by
  unfold parsePortalCookieSection; repeat' split
  all_goals (try rfl)
  all_goals (dsimp only; split_ifs <;> rfl)

theorem parseAddressSection_address_out (p : NmVpnSsoServicePriv) (b : Str) (v : Str)
    (h : (parseAddressSection p b).ip4_address = some v) :
    p.ip4_address = some v ∨ extractIpAfter (bytes " as ") b = some v := by
  unfold parseAddressSection at h
  rcases ha : p.ip4_address with _ | w
  · rw [ha] at h
    rcases he : extractIpAfter (bytes " as ") b with _ | a
    · rw [he] at h
      dsimp only at h
      rw [ha] at h
      exact absurd h (by simp)
    · rw [he] at h
      dsimp only at h
      exact Or.inr h
  · rw [ha] at h
    dsimp only at h
    exact Or.inl (ha.symm.trans h)

theorem parseGatewaySection_gateway_out (p : NmVpnSsoServicePriv) (b : Str) (v : Str)
    (h : (parseGatewaySection p b).ip4_gateway = some v) :
    p.ip4_gateway = some v ∨ extractIpAfter (bytes "Connected to ") b = some v := by
  unfold parseGatewaySection at h
  rcases ha : p.ip4_gateway with _ | w
  · rw [ha] at h
    rcases he : extractIpAfter (bytes "Connected to ") b with _ | a
    · rw [he] at h
      dsimp only at h
      rw [ha] at h
      exact absurd h (by simp)
    · rw [he] at h
      dsimp only at h
      exact Or.inr h
  · rw [ha] at h
    dsimp only at h
    exact Or.inl (ha.symm.trans h)

/-- C7 amended: the validation the parser performs on assigned-address,
gateway-address and DNS-server candidates is weaker than four dot-separated
numeric octets — a candidate is accepted exactly when it begins with a digit,
consists only of digits and dots, and contains exactly three dots; every
candidate failing this test is rejected and leaves the field unset, but a
token such as `1.2.3.` with an empty octet passes. -/
theorem c7_scanner_validation (p : NmVpnSsoServicePriv) (buf : Str) :
    (∀ v, p.ip4_address = none →
      (parse_openconnect_output p buf).1.ip4_address = some v → codeValidIp v = true) ∧
    (∀ v, p.ip4_gateway = none →
      (parse_openconnect_output p buf).1.ip4_gateway = some v → codeValidIp v = true) ∧
    (∀ v, v ∈ (parse_openconnect_output p buf).1.ip4_dns →
      v ∈ p.ip4_dns ∨ codeValidIp v = true) := by
  refine ⟨fun v hnone h => ?_, fun v hnone h => ?_, fun v h => ?_⟩
  · have h2 : (parseAddressSection (parseTundevSection p buf) buf).ip4_address = some v := by
      have h3 : (parse_openconnect_output p buf).1.ip4_address =
          (parseAddressSection (parseTundevSection p buf) buf).ip4_address := by
        show (parsePortalCookieSection (parseGatewaySection
          (parseAddressSection (parseTundevSection p buf) buf) buf) buf).1.ip4_address = _
        rw [parsePortalCookieSection_address, parseGatewaySection_address]
      rw [h3] at h
      exact h
    rcases parseAddressSection_address_out _ _ _ h2 with h4 | h4
    · rw [parseTundevSection_address] at h4
      exact absurd (hnone.symm.trans h4) (by simp)
    · exact extractIpAfter_valid _ _ _ h4
  · have h2 : (parseGatewaySection (parseAddressSection
        (parseTundevSection p buf) buf) buf).ip4_gateway = some v := by
      have h3 : (parse_openconnect_output p buf).1.ip4_gateway =
          (parseGatewaySection (parseAddressSection
            (parseTundevSection p buf) buf) buf).ip4_gateway := by
        show (parsePortalCookieSection (parseGatewaySection
          (parseAddressSection (parseTundevSection p buf) buf) buf) buf).1.ip4_gateway = _
        rw [parsePortalCookieSection_gateway]
      rw [h3] at h
      exact h
    rcases parseGatewaySection_gateway_out _ _ _ h2 with h4 | h4
    · rw [parseAddressSection_gateway, parseTundevSection_gateway] at h4
      exact absurd (hnone.symm.trans h4) (by simp)
    · exact extractIpAfter_valid _ _ _ h4
  · have h3 : (parse_openconnect_output p buf).1.ip4_dns = dnsLoop p.ip4_dns buf := by
      show (parseDnsSection (parsePortalCookieSection (parseGatewaySection
        (parseAddressSection (parseTundevSection p buf) buf) buf) buf).1 buf).ip4_dns = _
      unfold parseDnsSection
      dsimp only
      rw [parsePortalCookieSection_dns, parseGatewaySection_dns, parseAddressSection_dns,
        parseTundevSection_dns]
    rw [h3] at h
    exact dnsLoop_mem _ _ _ h

/-- C7 counterexample: the chunk `"Configured as 1.2.3. end"` makes the
parser accept and assign the candidate `1.2.3.`, which is not four
dot-separated numeric octets, refuting the claim that every accepted
candidate is validated as a dotted quad. -/
theorem c7_counterexample_dot_count_only :
    (parse_openconnect_output connectingPriv (bytes "Configured as 1.2.3. end")).1.ip4_address =
      some (bytes "1.2.3.") ∧
    isDottedQuad (bytes "1.2.3.") = false := by
  decide

/-- C7 witness: the amended validation on a concretely accepted address. -/
theorem c7_witness :
    codeValidIp (bytes "10.10.5.4") = true :=
  (c7_scanner_validation connectingPriv chunkConfigured).1 (bytes "10.10.5.4") rfl (by decide)

/-! ### Bookkeeping for the cached-credentials flag (claim C1) -/

theorem connect_to_vpn_fst (p : NmVpnSsoServicePriv) : (connect_to_vpn p).1 = p := by
  unfold connect_to_vpn; repeat' split
  all_goals rfl

theorem start_sso_authentication_uc (p : NmVpnSsoServicePriv) :
    (start_sso_authentication p).1.using_cached_credentials = p.using_cached_credentials := by
  unfold start_sso_authentication
  dsimp only
  split_ifs <;> rfl

theorem foldl_uc_preserve (f : NmVpnSsoServicePriv → Str → NmVpnSsoServicePriv)
    (hf : ∀ q l, (f q l).using_cached_credentials = q.using_cached_credentials) :
    ∀ (ls : List Str) (q : NmVpnSsoServicePriv),
      (List.foldl f q ls).using_cached_credentials = q.using_cached_credentials := by
  intro ls
  induction ls with
  | nil => intro q; rfl
  | cons a ls ih => intro q; rw [List.foldl_cons, ih, hf]

theorem parse_sso_cookie_uc (p : NmVpnSsoServicePriv) (out : Str) :
    (parse_sso_cookie p out).using_cached_credentials = p.using_cached_credentials := by
  unfold parse_sso_cookie parseSsoCookieGP parseSsoCookieAC
  split_ifs
  · repeat' split
    all_goals rfl
  · exact foldl_uc_preserve _ (by intro q l; dsimp only; split_ifs <;> rfl) _ p
  · rfl

theorem sso_child_watch_cb_uc (p : NmVpnSsoServicePriv) (st : ExitStatus)
    (h : (sso_child_watch_cb p st).1.using_cached_credentials = true) :
    p.using_cached_credentials = true := by
  unfold sso_child_watch_cb at h
  split_ifs at h
  · dsimp only at h
    rcases hck : (parse_sso_cookie { p with sso_active := false } (p.sso_output.getD [])).sso_cookie
      with _ | ck
    · rw [hck] at h
      dsimp only [cleanup_connection] at h
      rw [parse_sso_cookie_uc] at h
      exact h
    · rw [hck] at h
      dsimp only [start_openconnect] at h
      exact absurd h (by simp)
  · dsimp only [cleanup_connection] at h
    exact h

theorem credential_lookup_cb_uc (p : NmVpnSsoServicePriv) (r : LookupCbResult)
    (hne : isCacheHitEvent (.lookupDone r) = false)
    (h : (credential_lookup_cb p r).1.using_cached_credentials = true) :
    p.using_cached_credentials = true := by
  unfold credential_lookup_cb at h
  rcases r with _ | c
  · dsimp only at h
    rw [start_sso_authentication_uc] at h
    exact h
  · rcases c with _ | cv
    · dsimp only at h
      rw [start_sso_authentication_uc] at h
      exact absurd h (by simp)
    · dsimp only at h
      rcases hck : cv.cookie with _ | ck
      · rw [hck] at h
        dsimp only at h
        rw [start_sso_authentication_uc] at h
        exact absurd h (by simp)
      · rw [hck] at h
        dsimp only at h
        have hemp : ck = [] := by
          simp only [isCacheHitEvent, hck] at hne
          simpa using hne
        rw [if_neg (by simp [hemp])] at h
        rw [start_sso_authentication_uc] at h
        exact absurd h (by simp)

theorem openconnect_output_cb_uc (p : NmVpnSsoServicePriv) (b : Str) :
    (openconnect_output_cb p b).1.using_cached_credentials = p.using_cached_credentials := by
  unfold openconnect_output_cb
  dsimp only
  split_ifs <;> simp [parse_openconnect_output_uc]

theorem real_connect_uc (p : NmVpnSsoServicePriv) (d : NMSettingVpnData) :
    (real_connect p d).1.using_cached_credentials = p.using_cached_credentials := by
  unfold real_connect
  rw [connect_to_vpn_fst]

theorem isFallbackStep_true_elim (p : NmVpnSsoServicePriv) (e : VpnEvent)
    (h : isFallbackStep p e = true) :
    p.using_cached_credentials = true ∧
    (p.state = .connected ∨ p.state = .connecting) ∧
    ∃ c, e = .ocExit (.exited c) ∧ c ≠ 0 := by
  rcases e with r | st | st | b | b | d | _
  · simp [isFallbackStep] at h
  · simp [isFallbackStep] at h
  · rcases st with c | sg
    · simp only [isFallbackStep, Bool.and_eq_true, bne_iff_ne, ne_eq, Bool.or_eq_true,
        beq_iff_eq] at h
      exact ⟨h.2, h.1.2, c, rfl, h.1.1⟩
    · simp [isFallbackStep] at h
  · simp [isFallbackStep] at h
  · simp [isFallbackStep] at h
  · simp [isFallbackStep] at h
  · simp [isFallbackStep] at h

theorem fallback_sets_false (p : NmVpnSsoServicePriv) (e : VpnEvent)
    (h : isFallbackStep p e = true) :
    (serviceStep p e).1.using_cached_credentials = false := by
  obtain ⟨huc, hst, c, rfl, hc⟩ := isFallbackStep_true_elim p e h
  have h2 : serviceStep p (.ocExit (.exited c)) = openconnect_child_watch_cb p (.exited c) := rfl
  rw [h2]
  unfold openconnect_child_watch_cb
  dsimp only
  rw [if_pos hst, if_pos hc, if_pos huc]
  rw [start_sso_authentication_uc]

theorem hit_not_fallback (p : NmVpnSsoServicePriv) (e : VpnEvent)
    (h : isCacheHitEvent e = true) : isFallbackStep p e = false := by
  rcases e with r | st | st | b | b | d | _ <;> simp_all [isCacheHitEvent, isFallbackStep]

theorem serviceStep_uc_true (p : NmVpnSsoServicePriv) (e : VpnEvent)
    (hne : isCacheHitEvent e = false)
    (h : (serviceStep p e).1.using_cached_credentials = true) :
    p.using_cached_credentials = true := by
  rcases e with r | st | st | b | b | d | _
  · exact credential_lookup_cb_uc p r hne h
  · exact sso_child_watch_cb_uc p st h
  · have h2 : (openconnect_child_watch_cb p st).1.using_cached_credentials = true := h
    rcases st with c | sg
    · unfold openconnect_child_watch_cb at h2
      dsimp only at h2
      by_cases hcond : p.state = .connected ∨ p.state = .connecting
      · rw [if_pos hcond] at h2
        by_cases hc : c ≠ 0
        · rw [if_pos hc] at h2
          by_cases huc : p.using_cached_credentials = true
          · exact huc
          · rw [if_neg huc] at h2
            dsimp only [cleanup_connection] at h2
            exact h2
        · rw [if_neg hc] at h2
          dsimp only [cleanup_connection] at h2
          exact h2
      · rw [if_neg hcond] at h2
        dsimp only [cleanup_connection] at h2
        exact h2
    · unfold openconnect_child_watch_cb at h2
      dsimp only at h2
      by_cases hcond : p.state = .connected ∨ p.state = .connecting
      · rw [if_pos hcond] at h2
        dsimp only [cleanup_connection] at h2
        exact h2
      · rw [if_neg hcond] at h2
        dsimp only [cleanup_connection] at h2
        exact h2
  · have h2 : (openconnect_output_cb p b).1.using_cached_credentials = true := h
    rw [openconnect_output_cb_uc] at h2
    exact h2
  · exact h
  · have h2 : (real_connect p d).1.using_cached_credentials = true := h
    rw [real_connect_uc] at h2
    exact h2
  · exact h

theorem fallbackRetryCount_le (es : List VpnEvent) :
    ∀ p : NmVpnSsoServicePriv,
      fallbackRetryCount p es ≤
        (if p.using_cached_credentials then 1 else 0) + cacheHitCount es := by
  induction es with
  | nil =>
    intro p
    simp [fallbackRetryCount, cacheHitCount]
  | cons e es ih =>
    intro p
    have hcount : cacheHitCount (e :: es) =
        cacheHitCount es + (if isCacheHitEvent e then 1 else 0) := by
      simp [cacheHitCount, List.countP_cons]
    have hunf : fallbackRetryCount p (e :: es) =
        (if isFallbackStep p e then 1 else 0) + fallbackRetryCount (serviceStep p e).1 es :=
      rfl
    rw [hunf, hcount]
    have hih := ih (serviceStep p e).1
    by_cases hhit : isCacheHitEvent e = true
    · have hnf : isFallbackStep p e = false := hit_not_fallback p e hhit
      have h1 : (if isFallbackStep p e then (1 : Nat) else 0) = 0 := by simp [hnf]
      have h2 : (if isCacheHitEvent e then (1 : Nat) else 0) = 1 := by simp [hhit]
      have hb : (if (serviceStep p e).1.using_cached_credentials then (1 : Nat) else 0) ≤ 1 := by
        split_ifs <;> omega
      omega
    · have hne : isCacheHitEvent e = false := by simpa using hhit
      have h2 : (if isCacheHitEvent e then (1 : Nat) else 0) = 0 := by simp [hne]
      by_cases hfb : isFallbackStep p e = true
      · have huc := (isFallbackStep_true_elim p e hfb).1
        have hstep := fallback_sets_false p e hfb
        have h1 : (if isFallbackStep p e then (1 : Nat) else 0) = 1 := by simp [hfb]
        have h3 : (if p.using_cached_credentials then (1 : Nat) else 0) = 1 := by simp [huc]
        have h4 : (if (serviceStep p e).1.using_cached_credentials then (1 : Nat) else 0) = 0 := by
          simp [hstep]
        omega
      · have hfb2 : isFallbackStep p e = false := by simpa using hfb
        have h1 : (if isFallbackStep p e then (1 : Nat) else 0) = 0 := by simp [hfb2]
        have hmono : (if (serviceStep p e).1.using_cached_credentials then (1 : Nat) else 0) ≤
            (if p.using_cached_credentials then (1 : Nat) else 0) := by
          by_cases hs : (serviceStep p e).1.using_cached_credentials = true
          · have hp := serviceStep_uc_true p e hne hs
            rw [hs, hp]
          · have hs2 : (serviceStep p e).1.using_cached_credentials = false := by simpa using hs
            rw [hs2]
            simp
        omega

/-- C1: within an active attempt, a tunnel-process exit with nonzero status
while using cached credentials clears the cache entry for the attempt's
gateway and protocol, clears the held token and fingerprint, and retries via
fresh SSO (state back to authenticating, helper spawned, cached-credentials
flag cleared); the same exit while not using cached credentials reports a
terminal connect failure and never retries; and along any event sequence the
number of such fallback retries is bounded by the cached-credentials flag
plus the number of cache-hit events, so one connect attempt — whose single
lookup yields at most one cache hit — retries at most once. -/
theorem c1_cached_failure_retries_once :
    (∀ (p : NmVpnSsoServicePriv) (c : Nat),
      (p.state = .connected ∨ p.state = .connecting) →
      p.using_cached_credentials = true →
      (p.protocol = some protoGP ∨ p.protocol = some protoAC) →
      c ≠ 0 →
      (serviceStep p (.ocExit (.exited c))).2 =
        [Action.clearCache p.gateway p.protocol, Action.startSsoSpawn] ∧
      (serviceStep p (.ocExit (.exited c))).1.sso_cookie = none ∧
      (serviceStep p (.ocExit (.exited c))).1.sso_fingerprint = none ∧
      (serviceStep p (.ocExit (.exited c))).1.using_cached_credentials = false ∧
      (serviceStep p (.ocExit (.exited c))).1.state = .authenticating ∧
      (serviceStep p (.ocExit (.exited c))).1.sso_active = true) ∧
    (∀ (p : NmVpnSsoServicePriv) (c : Nat),
      (p.state = .connected ∨ p.state = .connecting) →
      p.using_cached_credentials = false →
      c ≠ 0 →
      (serviceStep p (.ocExit (.exited c))).2 = [Action.reportFailure .connectFailed] ∧
      (serviceStep p (.ocExit (.exited c))).1.state = .idle) ∧
    (∀ (es : List VpnEvent) (p : NmVpnSsoServicePriv),
      fallbackRetryCount p es ≤
        (if p.using_cached_credentials then 1 else 0) + cacheHitCount es) := by
  refine ⟨?_, ?_, fun es p => fallbackRetryCount_le es p⟩
  · intro p c hst huc hproto hc
    have h2 : serviceStep p (.ocExit (.exited c)) = openconnect_child_watch_cb p (.exited c) :=
      rfl
    rw [h2]
    unfold openconnect_child_watch_cb
    dsimp only
    rw [if_pos hst, if_pos hc, if_pos huc]
    unfold start_sso_authentication
    dsimp only
    rw [if_pos hproto]
    exact ⟨rfl, rfl, rfl, rfl, rfl, rfl⟩
  · intro p c hst huc hc
    have h2 : serviceStep p (.ocExit (.exited c)) = openconnect_child_watch_cb p (.exited c) :=
      rfl
    rw [h2]
    unfold openconnect_child_watch_cb
    dsimp only
    rw [if_pos hst, if_pos hc, if_neg (by rw [huc]; exact Bool.false_ne_true)]
    exact ⟨rfl, rfl⟩

/-- C1 witness: a concrete connecting attempt on cached credentials whose
tunnel exits with status 1, a fresh-credential attempt whose tunnel exits
with status 1, and the retry bound on the busy service with an empty event
sequence. -/
theorem c1_witness :
    ((serviceStep busyPriv (.ocExit (.exited 1))).2 =
        [Action.clearCache busyPriv.gateway busyPriv.protocol, Action.startSsoSpawn] ∧
      (serviceStep busyPriv (.ocExit (.exited 1))).1.sso_cookie = none ∧
      (serviceStep busyPriv (.ocExit (.exited 1))).1.sso_fingerprint = none ∧
      (serviceStep busyPriv (.ocExit (.exited 1))).1.using_cached_credentials = false ∧
      (serviceStep busyPriv (.ocExit (.exited 1))).1.state = .authenticating ∧
      (serviceStep busyPriv (.ocExit (.exited 1))).1.sso_active = true) ∧
    ((serviceStep connectingPriv (.ocExit (.exited 1))).2 =
        [Action.reportFailure .connectFailed] ∧
      (serviceStep connectingPriv (.ocExit (.exited 1))).1.state = .idle) ∧
    fallbackRetryCount busyPriv [] ≤
      (if busyPriv.using_cached_credentials then 1 else 0) + cacheHitCount [] :=
  ⟨c1_cached_failure_retries_once.1 busyPriv 1 (Or.inr rfl) rfl (Or.inl rfl) (by decide),
   c1_cached_failure_retries_once.2.1 connectingPriv 1 (Or.inr rfl) rfl (by decide),
   c1_cached_failure_retries_once.2.2 [] busyPriv⟩

/-! ### Cache serializer round trip (C4)

The JSON record written by `serialize_credential` is read back through the
regex-style field extraction of `parse_json_string` / `parse_json_int64`.
The lemmas below characterise where the leftmost field-pattern match lands:
inside a region with no double quote the pattern (which begins with a quote)
cannot start; inside an escaped value every quote carries a preceding
backslash, which the key part of the pattern (quote, clean key bytes, quote)
cannot reproduce; so the first match is the real field. -/

/-- `strStarts` is the prefix relation. -/
theorem strStarts_iff_exists_append : ∀ (pat s : Str), strStarts s pat = true ↔ ∃ t, s = pat ++ t := by
  intro pat
  induction pat with
  | nil =>
    intro s
    constructor
    · intro _; exact ⟨s, rfl⟩
    · intro _; cases s <;> rfl
  | cons b pat ih =>
    intro s
    cases s with
    | nil => simp [strStarts]
    | cons a s2 =>
      simp only [strStarts, Bool.and_eq_true, beq_iff_eq]
      constructor
      · rintro ⟨rfl, h⟩
        obtain ⟨t, rfl⟩ := (ih s2).mp h
        exact ⟨t, rfl⟩
      · rintro ⟨t, ht⟩
        injection ht with h1 h2
        exact ⟨h1, (ih s2).mpr ⟨t, h2⟩⟩

/-- Every string begins with itself. -/
theorem strStarts_prepend (pat t : Str) : strStarts (pat ++ t) pat = true :=
  (strStarts_iff_exists_append pat (pat ++ t)).mpr ⟨t, rfl⟩

/-- A quote-free string trivially satisfies the quote discipline. -/
theorem QE_of_no34 {s : Str} (h : ∀ c ∈ s, c ≠ 34) : QE s := by
  intro a b hab
  exfalso
  exact h 34 (by rw [hab]; exact List.mem_append_right a (List.mem_cons_self 34 b)) rfl

/-- The quote discipline passes to the tail when the head is not a
backslash. -/
theorem QE_cons_tail {x : Nat} {s : Str} (h : QE (x :: s)) (hx : x ≠ 92) : QE s := by
  intro a b hab
  obtain ⟨a2, ha2⟩ := h (x :: a) b (by rw [hab, List.cons_append])
  cases a2 with
  | nil =>
    simp only [List.nil_append] at ha2
    injection ha2 with h1 _
    exact absurd h1 hx
  | cons y a3 =>
    injection ha2 with _ h2
    exact ⟨a3, h2⟩

/-- The quote discipline is closed under concatenation. -/
theorem QE_append {x y : Str} (hx : QE x) (hy : QE y) : QE (x ++ y) := by
  intro a b hab
  rcases List.append_eq_append_iff.mp hab with ⟨w, hw1, hw2⟩ | ⟨w, hw1, hw2⟩
  · -- the split quote lies in `y`
    obtain ⟨a2, rfl⟩ := hy w b hw2
    exact ⟨x ++ a2, by rw [hw1]; exact (List.append_assoc x a2 [92]).symm⟩
  · -- the split quote lies in `x`
    cases w with
    | nil =>
      exfalso
      obtain ⟨a2, ha2⟩ := hy [] b (by simpa using hw2.symm)
      cases a2 <;> simp at ha2
    | cons w1 w2 =>
      simp only [List.cons_append] at hw2
      injection hw2 with h1 h2
      obtain ⟨a2, rfl⟩ := hx a w2 (by rw [hw1, ← h1])
      exact ⟨a2, rfl⟩

/-- Each single-byte escape respects the quote discipline: the only quote a
`g_strescape` escape emits is `\"`. -/
theorem QE_escChar (c : Nat) : QE (escChar c) := by
  unfold escChar
  split_ifs with h1 h2 h3 h4 h5 h6 h7 h8 h9
  · exact QE_of_no34 (by decide)
  · exact QE_of_no34 (by decide)
  · exact QE_of_no34 (by decide)
  · exact QE_of_no34 (by decide)
  · exact QE_of_no34 (by decide)
  · exact QE_of_no34 (by decide)
  · exact QE_of_no34 (by decide)
  · -- the escaped quote [92, 34]
    intro a b hab
    cases a with
    | nil => simp at hab
    | cons a1 a2 =>
      injection hab with ha1 hrest
      cases a2 with
      | nil =>
        refine ⟨[], ?_⟩
        simp only [List.nil_append] at hrest ⊢
        injection hrest with h34 _
        rw [ha1]
      | cons a3 a4 =>
        exfalso
        injection hrest with _ htail
        cases a4 <;> simp at htail
  · -- octal escape: bytes 92 and 48..55, no quote
    refine QE_of_no34 ?_
    intro d hd
    simp only [List.mem_cons, List.not_mem_nil, or_false] at hd
    rcases hd with rfl | rfl | rfl | rfl <;> omega
  · exact QE_of_no34 (by intro d hd; simp only [List.mem_cons, List.not_mem_nil, or_false] at hd; omega)

/-- `g_strescape` output respects the quote discipline. -/
theorem QE_escStr (v : Str) : QE (escStr v) := by
  induction v with
  | nil =>
    intro a b hab
    simp only [escStr] at hab
    exact absurd hab.symm (by simp)
  | cons c v2 ih => exact QE_append (QE_escChar c) ih

/-- The quote discipline survives cutting the string just after any quote. -/
theorem QE_suffix_tail {X pre a3 : Str} (hQE : QE X) (h : X = pre ++ 34 :: a3) : QE a3 := by
  intro a b hab
  have h2 : X = (pre ++ 34 :: a) ++ 34 :: b := by rw [h, hab]; simp
  obtain ⟨a2, ha2⟩ := hQE _ _ h2
  rcases List.eq_nil_or_concat a with rfl | ⟨a4, alast, rfl⟩
  · exfalso
    have h3 : pre ++ [34] = a2 ++ [92] := by simpa using ha2
    have h4 := congrArg List.getLast? h3
    rw [List.getLast?_concat, List.getLast?_concat] at h4
    simp at h4
  · have h3 : (pre ++ 34 :: a4) ++ [alast] = a2 ++ [92] := by simpa using ha2
    have h4 := congrArg List.getLast? h3
    rw [List.getLast?_concat, List.getLast?_concat] at h4
    simp only [Option.some.injEq] at h4
    exact ⟨a4, by rw [h4]; exact List.concat_eq_append a4 92⟩

/-- Key uniqueness: under the quote discipline, if the text up to some
unescaped quote reads as a clean key (no quote, no backslash) followed by the
pattern's closing quote, the text is that key. -/
theorem key_match_unique : ∀ (xs : Str), QE xs → ∀ (key z : Str),
    (∀ c ∈ key, c ≠ 34 ∧ c ≠ 92) →
    strStarts (xs ++ 34 :: z) (key ++ [34]) = true → xs = key := by
  intro xs
  induction xs with
  | nil =>
    intro _ key z hk h
    cases key with
    | nil => rfl
    | cons k key2 =>
      exfalso
      simp only [List.nil_append, List.cons_append, strStarts, Bool.and_eq_true,
        beq_iff_eq] at h
      exact (hk k (List.mem_cons_self k key2)).1 h.1.symm
  | cons x xs2 ih =>
    intro hQE key z hk h
    cases key with
    | nil =>
      exfalso
      simp only [List.nil_append, List.cons_append, strStarts, Bool.and_eq_true,
        beq_iff_eq] at h
      obtain ⟨a2, ha2⟩ := hQE [] xs2 (by rw [h.1, List.nil_append])
      cases a2 <;> simp at ha2
    | cons k key2 =>
      simp only [List.cons_append, strStarts, Bool.and_eq_true, beq_iff_eq] at h
      have hx92 : x ≠ 92 := by
        rw [h.1]; exact (hk k (List.mem_cons_self k key2)).2
      have hrec := ih (QE_cons_tail hQE hx92) key2 z
        (fun c hc => hk c (List.mem_cons_of_mem k hc)) h.2
      rw [h.1, hrec]

/-- Nothing to shield in an empty region. -/
theorem shield_nil (pm : Str → Bool) (B : Str) : Shield pm [] B := by
  intro a2 hne hs
  obtain ⟨t, ht⟩ := hs
  rcases List.append_eq_nil.mp ht with ⟨-, h2⟩
  exact absurd h2 hne

/-- A one-byte region shields iff the matcher fails at its position. -/
theorem shield_single {pm : Str → Bool} {c : Nat} {B : Str} (h : pm (c :: B) = false) :
    Shield pm [c] B := by
  intro a2 hne hs
  obtain ⟨t, ht⟩ := hs
  cases a2 with
  | nil => exact absurd rfl hne
  | cons a a3 =>
    have hlen := congrArg List.length ht
    simp only [List.length_append, List.length_cons, List.length_nil] at hlen
    have ht0 : t = [] := List.length_eq_zero.mp (by omega)
    have ha3 : a3 = [] := List.length_eq_zero.mp (by omega)
    subst ht0; subst ha3
    simp only [List.nil_append] at ht
    injection ht with h1 _
    subst h1
    exact h

/-- A quote-free region shields any matcher that demands a leading quote. -/
theorem shield_of_no34 {pm : Str → Bool}
    (hpm : ∀ c t, c ≠ 34 → pm (c :: t) = false) {A : Str} (B : Str)
    (hA : ∀ c ∈ A, c ≠ 34) : Shield pm A B := by
  intro a2 hne hs
  cases a2 with
  | nil => exact absurd rfl hne
  | cons c a3 =>
    exact hpm c (a3 ++ B) (hA c (hs.subset (List.mem_cons_self c a3)))

/-- A suffix of a concatenation is a suffix of the right part or extends it
by a suffix of the left part. -/
theorem suffix_split {a2 A1 A2 : Str} (hs : a2 <:+ A1 ++ A2) :
    a2 <:+ A2 ∨ ∃ a1, a1 <:+ A1 ∧ a2 = a1 ++ A2 := by
  obtain ⟨t, ht⟩ := hs
  rcases List.append_eq_append_iff.mp ht with ⟨w, hw1, hw2⟩ | ⟨w, hw1, hw2⟩
  · exact Or.inr ⟨w, ⟨t, hw1.symm⟩, hw2⟩
  · exact Or.inl ⟨w, hw2.symm⟩

/-- Shields compose over concatenation. -/
theorem shield_append {pm : Str → Bool} {A1 A2 B : Str}
    (h1 : Shield pm A1 (A2 ++ B)) (h2 : Shield pm A2 B) : Shield pm (A1 ++ A2) B := by
  intro a2 hne hs
  rcases suffix_split hs with hsub | ⟨a1, ha1, heq⟩
  · exact h2 a2 hne hsub
  · subst heq
    cases a1 with
    | nil =>
      simp only [List.nil_append] at hne ⊢
      exact h2 A2 hne (List.suffix_refl A2)
    | cons c a3 =>
      have h3 := h1 (c :: a3) (by simp) ha1
      rw [List.append_assoc]
      exact h3

/-- The leftmost match of a shielded pattern is the designated suffix. -/
theorem findFieldSuffix_append {pm : Str → Bool} {Pre RS : Str}
    (hsh : Shield pm Pre RS) (hRS : pm RS = true) :
    findFieldSuffix pm (Pre ++ RS) = some RS := by
  induction Pre with
  | nil =>
    cases RS with
    | nil => simp [findFieldSuffix, hRS]
    | cons c r => simp [findFieldSuffix, hRS]
  | cons c Pre2 ih =>
    have hfalse : pm (c :: (Pre2 ++ RS)) = false := by
      have := hsh (c :: Pre2) (by simp) (List.suffix_refl _)
      simpa using this
    have hsh2 : Shield pm Pre2 RS :=
      fun a2 hne hs => hsh a2 hne (hs.trans (List.suffix_cons c Pre2))
    simp only [List.cons_append, findFieldSuffix, List.append_eq, hfalse,
      Bool.false_eq_true, if_false]
    exact ih hsh2

/-- A match of either field pattern must start on a double quote. -/
theorem starts_quote_head {key : Str} {c : Nat} {t : Str}
    (hb : strStarts (c :: t) (34 :: key ++ [34]) = true) : c = 34 := by
  obtain ⟨t2, ht2⟩ := (strStarts_iff_exists_append _ _).mp hb
  simp only [List.cons_append] at ht2
  exact (List.cons.inj ht2).1

/-- The string-field pattern fails off-quote. -/
theorem strFieldPat_head {key : Str} {c : Nat} (t : Str) (hc : c ≠ 34) :
    strFieldPat key (c :: t) = false := by
  cases hb : strStarts (c :: t) (34 :: key ++ [34]) with
  | false => unfold strFieldPat; rw [hb, Bool.false_and]
  | true => exact absurd (starts_quote_head hb) hc

/-- The integer-field pattern fails off-quote. -/
theorem intFieldPat_head {key : Str} {c : Nat} (t : Str) (hc : c ≠ 34) :
    intFieldPat key (c :: t) = false := by
  cases hb : strStarts (c :: t) (34 :: key ++ [34]) with
  | false => unfold intFieldPat; rw [hb, Bool.false_and]
  | true => exact absurd (starts_quote_head hb) hc

/-- Skipping the quote, the key, and the second quote of a field pattern. -/
theorem drop_key2 (key Y : Str) : (34 :: (key ++ 34 :: Y)).drop (key.length + 2) = Y := by
  have h : 34 :: (key ++ 34 :: Y) = 34 :: ((key ++ [34]) ++ Y) := by simp
  rw [h, show key.length + 2 = (key ++ [34]).length + 1 by simp,
    List.drop_succ_cons, List.drop_left]

/-- At a quote inside a disciplined region followed by the region's closing
quote and a comma, the string-field pattern fails: the matched key would have
to be the whole region remainder, and the comma refuses the `\s*:\s*"`
tail. -/
theorem quote_shield_str {key X Y2 : Str} (hQE : QE X)
    (hk : ∀ c ∈ key, c ≠ 34 ∧ c ≠ 92) :
    strFieldPat key (34 :: (X ++ 34 :: 44 :: Y2)) = false := by
  cases hb : strStarts (X ++ 34 :: 44 :: Y2) (key ++ [34]) with
  | false =>
    unfold strFieldPat
    have h1 : strStarts (34 :: (X ++ 34 :: 44 :: Y2)) (34 :: key ++ [34]) = false := by
      simp only [List.cons_append, strStarts, List.append_eq, hb, Bool.and_false]
    rw [h1, Bool.false_and]
  | true =>
    have hXkey : X = key := key_match_unique X hQE key (44 :: Y2) hk hb
    subst hXkey
    unfold strFieldPat
    rw [drop_key2]
    have h2 : afterKeyQuote (44 :: Y2) = false := rfl
    rw [h2, Bool.and_false]

/-- Integer-field analogue of `quote_shield_str`. -/
theorem quote_shield_int {key X Y2 : Str} (hQE : QE X)
    (hk : ∀ c ∈ key, c ≠ 34 ∧ c ≠ 92) :
    intFieldPat key (34 :: (X ++ 34 :: 44 :: Y2)) = false := by
  cases hb : strStarts (X ++ 34 :: 44 :: Y2) (key ++ [34]) with
  | false =>
    unfold intFieldPat
    have h1 : strStarts (34 :: (X ++ 34 :: 44 :: Y2)) (34 :: key ++ [34]) = false := by
      simp only [List.cons_append, strStarts, List.append_eq, hb, Bool.and_false]
    rw [h1, Bool.false_and]
  | true =>
    have hXkey : X = key := key_match_unique X hQE key (44 :: Y2) hk hb
    subst hXkey
    unfold intFieldPat
    rw [drop_key2]
    have h2 : afterKeyInt (44 :: Y2) = false := rfl
    rw [h2, Bool.and_false]

/-- A quote-disciplined region whose closing quote is followed by a comma
shields the string-field pattern. -/
theorem shield_qe_str {key X Y2 : Str} (hQE : QE X)
    (hk : ∀ c ∈ key, c ≠ 34 ∧ c ≠ 92) :
    Shield (strFieldPat key) X (34 :: 44 :: Y2) := by
  intro a2 hne hs
  cases a2 with
  | nil => exact absurd rfl hne
  | cons c a3 =>
    by_cases hc : c = 34
    · subst hc
      obtain ⟨t, ht⟩ := hs
      have hQE3 : QE a3 := QE_suffix_tail hQE ht.symm
      have h := @quote_shield_str key a3 Y2 hQE3 hk
      simpa using h
    · simpa using @strFieldPat_head key c (a3 ++ (34 :: 44 :: Y2)) hc

/-- A quote-disciplined region whose closing quote is followed by a comma
shields the integer-field pattern. -/
theorem shield_qe_int {key X Y2 : Str} (hQE : QE X)
    (hk : ∀ c ∈ key, c ≠ 34 ∧ c ≠ 92) :
    Shield (intFieldPat key) X (34 :: 44 :: Y2) := by
  intro a2 hne hs
  cases a2 with
  | nil => exact absurd rfl hne
  | cons c a3 =>
    by_cases hc : c = 34
    · subst hc
      obtain ⟨t, ht⟩ := hs
      have hQE3 : QE a3 := QE_suffix_tail hQE ht.symm
      have h := @quote_shield_int key a3 Y2 hQE3 hk
      simpa using h
    · simpa using @intFieldPat_head key c (a3 ++ (34 :: 44 :: Y2)) hc

/-- The string-field pattern does match at the real serialized field. -/
theorem strFieldPat_at (key w : Str) :
    strFieldPat key (34 :: (key ++ 34 :: 58 :: 32 :: 34 :: w)) = true := by
  unfold strFieldPat
  rw [drop_key2]
  have h2 : afterKeyQuote (58 :: 32 :: 34 :: w) = true := rfl
  rw [h2, Bool.and_true]
  have h3 : 34 :: (key ++ 34 :: 58 :: 32 :: 34 :: w)
      = (34 :: key ++ [34]) ++ (58 :: 32 :: 34 :: w) := by simp
  rw [h3]
  exact strStarts_prepend _ _

/-- Digit bytes are not whitespace. -/
theorem digit_not_ws {d : Nat} (hd : isDigitB d = true) : wsB d = false := by
  simp only [isDigitB, Bool.and_eq_true, decide_eq_true_eq] at hd
  simp only [wsB, Bool.or_eq_false_iff, beq_eq_false_iff_ne, ne_eq]
  omega

/-- The integer-field pattern does match at the real serialized field. -/
theorem intFieldPat_at (key : Str) (d : Nat) (t : Str) (hd : isDigitB d = true) :
    intFieldPat key (34 :: (key ++ 34 :: 58 :: 32 :: d :: t)) = true := by
  unfold intFieldPat
  rw [drop_key2]
  have h58 : wsB 58 = false := rfl
  have h32 : wsB 32 = true := rfl
  have hwsd : wsB d = false := digit_not_ws hd
  have h2 : afterKeyInt (58 :: 32 :: d :: t) = true := by
    simp [afterKeyInt, List.dropWhile, h58, h32, hwsd, hd]
  rw [h2, Bool.and_true]
  have h3 : 34 :: (key ++ 34 :: 58 :: 32 :: d :: t)
      = (34 :: key ++ [34]) ++ (58 :: 32 :: d :: t) := by simp
  rw [h3]
  exact strStarts_prepend _ _

/-- The value region of the real serialized string field starts right after
its opening quote. -/
theorem strFieldValueRegion_at (key v : Str) :
    strFieldValueRegion key (34 :: (key ++ 34 :: 58 :: 32 :: 34 :: v)) = some v := by
  unfold strFieldValueRegion
  rw [drop_key2]
  rfl

/-- A maximal digit run stops at the comma after the serialized number. -/
theorem takeWhile_digits_append (D w : Str) (hD : ∀ c ∈ D, isDigitB c = true) :
    (D ++ 44 :: w).takeWhile isDigitB = D := by
  induction D with
  | nil => simp [List.takeWhile_cons, show isDigitB 44 = false from rfl]
  | cons c D2 ih =>
    have hc := hD c (List.mem_cons_self c D2)
    simp only [List.cons_append, List.takeWhile_cons, hc, if_true]
    rw [ih (fun c2 h2 => hD c2 (List.mem_cons_of_mem c h2))]

/-- The digits captured at the real serialized integer field are exactly the
serialized digit run. -/
theorem intFieldDigits_at (key : Str) (d : Nat) (D w : Str) (hd : isDigitB d = true)
    (hD : ∀ c ∈ D, isDigitB c = true) :
    intFieldDigits key (34 :: (key ++ 34 :: 58 :: 32 :: d :: (D ++ 44 :: w))) = d :: D := by
  unfold intFieldDigits
  rw [drop_key2]
  have h58 : wsB 58 = false := rfl
  have h32 : wsB 32 = true := rfl
  have hwsd : wsB d = false := digit_not_ws hd
  simp only [List.dropWhile, h58, h32, hwsd, Bool.false_eq_true, if_false, if_true]
  simp only [List.takeWhile_cons, hd, if_true]
  rw [takeWhile_digits_append D w hD]

/-- Decimal rendering produces digit bytes only. -/
theorem natToDecAux_digits : ∀ (f n : Nat), ∀ c ∈ natToDecAux f n, isDigitB c = true := by
  intro f
  induction f with
  | zero => intro n c hc; simp [natToDecAux] at hc
  | succ f ih =>
    intro n c hc
    simp only [natToDecAux] at hc
    by_cases hn : n < 10
    · rw [if_pos hn] at hc
      simp only [List.mem_singleton] at hc
      subst hc
      simp only [isDigitB, Bool.and_eq_true, decide_eq_true_eq]
      omega
    · rw [if_neg hn] at hc
      rcases List.mem_append.mp hc with h | h
      · exact ih (n / 10) c h
      · simp only [List.mem_singleton] at h
        subst h
        simp only [isDigitB, Bool.and_eq_true, decide_eq_true_eq]
        omega

/-- Decimal rendering is never empty when fuel remains. -/
theorem natToDecAux_ne_nil : ∀ (f n : Nat), 0 < f → natToDecAux f n ≠ [] := by
  intro f n hf
  cases f with
  | zero => omega
  | succ f =>
    simp only [natToDecAux]
    by_cases hn : n < 10
    · rw [if_pos hn]; simp
    · rw [if_neg hn]; simp

/-- With enough fuel, reading the decimal rendering back gives the number. -/
theorem digitsVal_natToDecAux : ∀ (f n : Nat), n < 10 ^ f → digitsVal (natToDecAux f n) = n := by
  intro f
  induction f with
  | zero =>
    intro n hn
    have h0 : n = 0 := by simpa using hn
    subst h0
    rfl
  | succ f ih =>
    intro n hn
    simp only [natToDecAux]
    by_cases h10 : n < 10
    · rw [if_pos h10]
      simp only [digitsVal, List.foldl]
      omega
    · rw [if_neg h10]
      have hdiv : n / 10 < 10 ^ f := by
        rw [Nat.div_lt_iff_lt_mul (by norm_num)]
        calc n < 10 ^ (f + 1) := hn
        _ = 10 ^ f * 10 := by rw [pow_succ]
      have hv := ih (n / 10) hdiv
      unfold digitsVal at hv ⊢
      rw [List.foldl_append]
      simp only [List.foldl]
      rw [hv]
      omega

/-- Reading a natural number's decimal digits back gives the number. -/
theorem digitsVal_natToDec (n : Nat) : digitsVal (natToDec n) = n := by
  unfold natToDec
  apply digitsVal_natToDecAux
  calc n < 2 ^ n := Nat.lt_two_pow n
  _ ≤ 2 ^ (n + 1) := Nat.pow_le_pow_right (by norm_num) (by omega)
  _ ≤ 10 ^ (n + 1) := Nat.pow_le_pow_left (by norm_num) _

/-- All bytes of a decimal rendering are digits. -/
theorem natToDec_digits (n : Nat) : ∀ c ∈ natToDec n, isDigitB c = true :=
  natToDecAux_digits _ _

/-- A decimal rendering is nonempty. -/
theorem natToDec_ne_nil (n : Nat) : natToDec n ≠ [] :=
  natToDecAux_ne_nil _ _ (by omega)

/-- `g_ascii_strtoll` does not clamp an in-range decimal rendering. -/
theorem strtollDigits_natToDec {n : Nat} (h : (n : Int) ≤ 2 ^ 63 - 1) :
    strtollDigits (natToDec n) = (n : Int) := by
  unfold strtollDigits
  rw [digitsVal_natToDec]
  have h63 : ((2 : Int) ^ 63 - 1) = 9223372036854775807 := by norm_num
  rw [h63] at h ⊢
  rw [if_neg (by omega)]

/-- A nonnegative `gint64` renders as its natural decimal digits. -/
theorem intToDec_nonneg {i : Int} (h : 0 ≤ i) : intToDec i = natToDec i.toNat := by
  unfold intToDec
  rw [if_neg (by omega)]

/-- The unescape scan gives the same answer under any sufficient fuel. -/
theorem compressStrAux_congr : ∀ (g1 : Nat) (s : Str) (g2 : Nat),
    s.length < g1 → s.length < g2 → compressStrAux g1 s = compressStrAux g2 s := by
  intro g1
  induction g1 with
  | zero => intro s g2 h1 _; exact absurd h1 (Nat.not_lt_zero _)
  | succ g1 ih =>
    intro s g2 h1 h2
    cases g2 with
    | zero => exact absurd h2 (Nat.not_lt_zero _)
    | succ g2 =>
      cases s with
      | nil => rfl
      | cons c s2 =>
        simp only [compressStrAux]
        by_cases hc : c = 92
        · simp only [if_pos hc]
          cases s2 with
          | nil => rfl
          | cons d s3 =>
            dsimp only
            by_cases hd : isOctB d = true
            · simp only [if_pos hd]
              cases s3 with
              | nil => rfl
              | cons d2 s4 =>
                dsimp only
                by_cases hd2 : isOctB d2 = true
                · simp only [if_pos hd2]
                  cases s4 with
                  | nil => rfl
                  | cons d3 s5 =>
                    dsimp only
                    by_cases hd3 : isOctB d3 = true
                    · simp only [if_pos hd3]
                      rw [ih s5 g2 (by simp only [List.length_cons] at h1; omega)
                        (by simp only [List.length_cons] at h2; omega)]
                    · simp only [if_neg hd3]
                      rw [ih (d3 :: s5) g2 (by simp only [List.length_cons] at h1 ⊢; omega)
                        (by simp only [List.length_cons] at h2 ⊢; omega)]
                · simp only [if_neg hd2]
                  rw [ih (d2 :: s4) g2 (by simp only [List.length_cons] at h1 ⊢; omega)
                    (by simp only [List.length_cons] at h2 ⊢; omega)]
            · simp only [if_neg hd]
              rw [ih s3 g2 (by simp only [List.length_cons] at h1; omega)
                (by simp only [List.length_cons] at h2; omega)]
        · simp only [if_neg hc]
          rw [ih s2 g2 (by simp only [List.length_cons] at h1; omega)
            (by simp only [List.length_cons] at h2; omega)]

/-- `g_strcompress` undoes one `g_strescape` escape at the head. -/
theorem compressStr_escChar_cons (c : Nat) (t : Str) (hc : c < 256) :
    compressStr (escChar c ++ t) = c :: compressStr t := by
  unfold compressStr
  unfold escChar
  split_ifs with h1 h2 h3 h4 h5 h6 h7 h8 h9
  · subst h1
    simp only [List.cons_append, List.nil_append, List.length_cons]
    simp only [compressStrAux]
    norm_num [isOctB, escNamed]
    rw [compressStrAux_congr (t.length + 1 + 1) t (t.length + 1) (by omega) (by omega)]
  · subst h2
    simp only [List.cons_append, List.nil_append, List.length_cons]
    simp only [compressStrAux]
    norm_num [isOctB, escNamed]
    rw [compressStrAux_congr (t.length + 1 + 1) t (t.length + 1) (by omega) (by omega)]
  · subst h3
    simp only [List.cons_append, List.nil_append, List.length_cons]
    simp only [compressStrAux]
    norm_num [isOctB, escNamed]
    rw [compressStrAux_congr (t.length + 1 + 1) t (t.length + 1) (by omega) (by omega)]
  · subst h4
    simp only [List.cons_append, List.nil_append, List.length_cons]
    simp only [compressStrAux]
    norm_num [isOctB, escNamed]
    rw [compressStrAux_congr (t.length + 1 + 1) t (t.length + 1) (by omega) (by omega)]
  · subst h5
    simp only [List.cons_append, List.nil_append, List.length_cons]
    simp only [compressStrAux]
    norm_num [isOctB, escNamed]
    rw [compressStrAux_congr (t.length + 1 + 1) t (t.length + 1) (by omega) (by omega)]
  · subst h6
    simp only [List.cons_append, List.nil_append, List.length_cons]
    simp only [compressStrAux]
    norm_num [isOctB, escNamed]
    rw [compressStrAux_congr (t.length + 1 + 1) t (t.length + 1) (by omega) (by omega)]
  · subst h7
    simp only [List.cons_append, List.nil_append, List.length_cons]
    simp only [compressStrAux]
    norm_num [isOctB, escNamed]
    rw [compressStrAux_congr (t.length + 1 + 1) t (t.length + 1) (by omega) (by omega)]
  · subst h8
    simp only [List.cons_append, List.nil_append, List.length_cons]
    simp only [compressStrAux]
    norm_num [isOctB, escNamed]
    rw [compressStrAux_congr (t.length + 1 + 1) t (t.length + 1) (by omega) (by omega)]
  · have ho1 : isOctB (48 + c / 64 % 8) = true := by
      simp only [isOctB, Bool.and_eq_true, decide_eq_true_eq]; omega
    have ho2 : isOctB (48 + c / 8 % 8) = true := by
      simp only [isOctB, Bool.and_eq_true, decide_eq_true_eq]; omega
    have ho3 : isOctB (48 + c % 8) = true := by
      simp only [isOctB, Bool.and_eq_true, decide_eq_true_eq]; omega
    simp only [List.cons_append, List.nil_append, List.length_cons]
    simp only [compressStrAux]
    norm_num [ho1, ho2, ho3]
    constructor
    · omega
    · rw [compressStrAux_congr (t.length + 1 + 1 + 1 + 1) t (t.length + 1) (by omega) (by omega)]
  · simp only [List.cons_append, List.nil_append, List.length_cons]
    simp only [compressStrAux]
    rw [if_neg h7]

/-- `g_strcompress` inverts `g_strescape` on byte strings. -/
theorem compressStr_escStr (v : Str) (hv : ∀ c ∈ v, c < 256) : compressStr (escStr v) = v := by
  induction v with
  | nil => rfl
  | cons c v2 ih =>
    simp only [escStr]
    rw [compressStr_escChar_cons c (escStr v2) (hv c (List.mem_cons_self c v2))]
    rw [ih (fun d hd => hv d (List.mem_cons_of_mem c hd))]

/-- A quote at the head ends the quote scan at once. -/
theorem scanJsonValue_quote (r : Str) : scanJsonValue (34 :: r) = some [] := by
  rw [scanJsonValue.eq_def]
  dsimp only
  rw [if_pos rfl]

/-- The quote scan passes an ordinary byte through. -/
theorem scanJsonValue_cons_plain {c : Nat} (hc34 : ¬c = 34) (hc92 : ¬c = 92) (s : Str) :
    scanJsonValue (c :: s) = (scanJsonValue s).map (fun v => c :: v) := by
  rw [scanJsonValue.eq_def]
  dsimp only
  rw [if_neg hc34, if_neg hc92]

/-- The quote scan skips the byte after a backslash. -/
theorem scanJsonValue_cons_esc (b : Nat) (s : Str) :
    scanJsonValue (92 :: b :: s) = (scanJsonValue s).map (fun v => 92 :: b :: v) := by
  rw [scanJsonValue.eq_def]
  dsimp only
  rw [if_neg (by norm_num), if_pos rfl]

/-- The quote scan of `parse_json_string` stops exactly at the first quote
after the escaped value. -/
theorem scanJsonValue_escStr (v r : Str) :
    scanJsonValue (escStr v ++ 34 :: r) = some (escStr v) := by
  induction v with
  | nil => simp only [escStr, List.nil_append, scanJsonValue_quote]
  | cons c v2 ih =>
    simp only [escStr, List.append_assoc]
    unfold escChar
    split_ifs with h1 h2 h3 h4 h5 h6 h7 h8 h9
    · simp only [List.cons_append, List.nil_append, scanJsonValue_cons_esc, ih, Option.map_some']
    · simp only [List.cons_append, List.nil_append, scanJsonValue_cons_esc, ih, Option.map_some']
    · simp only [List.cons_append, List.nil_append, scanJsonValue_cons_esc, ih, Option.map_some']
    · simp only [List.cons_append, List.nil_append, scanJsonValue_cons_esc, ih, Option.map_some']
    · simp only [List.cons_append, List.nil_append, scanJsonValue_cons_esc, ih, Option.map_some']
    · simp only [List.cons_append, List.nil_append, scanJsonValue_cons_esc, ih, Option.map_some']
    · simp only [List.cons_append, List.nil_append, scanJsonValue_cons_esc, ih, Option.map_some']
    · simp only [List.cons_append, List.nil_append, scanJsonValue_cons_esc, ih, Option.map_some']
    · have hb2 : ¬(48 + c / 8 % 8 = 34) := by omega
      have hb2b : ¬(48 + c / 8 % 8 = 92) := by omega
      have hb3 : ¬(48 + c % 8 = 34) := by omega
      have hb3b : ¬(48 + c % 8 = 92) := by omega
      simp only [List.cons_append, List.nil_append, scanJsonValue_cons_esc,
        scanJsonValue_cons_plain hb2 hb2b, scanJsonValue_cons_plain hb3 hb3b, ih,
        Option.map_some']
    · simp only [List.cons_append, List.nil_append, scanJsonValue_cons_plain h8 h7, ih,
        Option.map_some']

/-- Digit bytes are not double quotes. -/
theorem digit_ne34 {c : Nat} (h : isDigitB c = true) : c ≠ 34 := by
  simp only [isDigitB, Bool.and_eq_true, decide_eq_true_eq] at h
  omega

/-- The string-field pattern fails when the byte after the quote differs from
the key's first byte. -/
theorem strFieldPat_mism2 {k1 : Nat} {key2 : Str} {c2 : Nat} (t : Str) (h : ¬c2 = k1) :
    strFieldPat (k1 :: key2) (34 :: c2 :: t) = false := by
  cases hb : strStarts (34 :: c2 :: t) (34 :: (k1 :: key2) ++ [34]) with
  | false => unfold strFieldPat; rw [hb, Bool.false_and]
  | true =>
    exfalso
    obtain ⟨t2, ht2⟩ := (strStarts_iff_exists_append _ _).mp hb
    simp only [List.cons_append] at ht2
    exact h (List.cons.inj (List.cons.inj ht2).2).1

/-- The integer-field pattern fails when the byte after the quote differs
from the key's first byte. -/
theorem intFieldPat_mism2 {k1 : Nat} {key2 : Str} {c2 : Nat} (t : Str) (h : ¬c2 = k1) :
    intFieldPat (k1 :: key2) (34 :: c2 :: t) = false := by
  cases hb : strStarts (34 :: c2 :: t) (34 :: (k1 :: key2) ++ [34]) with
  | false => unfold intFieldPat; rw [hb, Bool.false_and]
  | true =>
    exfalso
    obtain ⟨t2, ht2⟩ := (strStarts_iff_exists_append _ _).mp hb
    simp only [List.cons_append] at ht2
    exact h (List.cons.inj (List.cons.inj ht2).2).1

/-- The string-field pattern fails when the second byte after the quote
differs from the key's second byte. -/
theorem strFieldPat_mism3 {k1 k2 : Nat} {key3 : Str} {c2 c3 : Nat} (t : Str)
    (h3 : ¬c3 = k2) : strFieldPat (k1 :: k2 :: key3) (34 :: c2 :: c3 :: t) = false := by
  cases hb : strStarts (34 :: c2 :: c3 :: t) (34 :: (k1 :: k2 :: key3) ++ [34]) with
  | false => unfold strFieldPat; rw [hb, Bool.false_and]
  | true =>
    exfalso
    obtain ⟨t2, ht2⟩ := (strStarts_iff_exists_append _ _).mp hb
    simp only [List.cons_append] at ht2
    exact h3 (List.cons.inj (List.cons.inj (List.cons.inj ht2).2).2).1

/-- A shielded integer field parses to its serialized digit run. -/
theorem parse_json_int64_at {key Pre D w : Str} {d : Nat}
    (hsh : Shield (intFieldPat key) Pre (34 :: (key ++ 34 :: 58 :: 32 :: d :: (D ++ 44 :: w))))
    (hd : isDigitB d = true) (hD : ∀ c ∈ D, isDigitB c = true) :
    parse_json_int64 (Pre ++ 34 :: (key ++ 34 :: 58 :: 32 :: d :: (D ++ 44 :: w))) key
      = strtollDigits (d :: D) := by
  unfold parse_json_int64
  rw [findFieldSuffix_append hsh (intFieldPat_at key d _ hd)]
  dsimp only
  rw [intFieldDigits_at key d D w hd hD]

/-- A shielded string field parses back to the value that was escaped into
it. -/
theorem parse_json_string_at {key Pre v after : Str}
    (hsh : Shield (strFieldPat key) Pre
      (34 :: (key ++ 34 :: 58 :: 32 :: 34 :: (escStr v ++ 34 :: after))))
    (hv : ∀ c ∈ v, c < 256) :
    parse_json_string (Pre ++ 34 :: (key ++ 34 :: 58 :: 32 :: 34 :: (escStr v ++ 34 :: after))) key
      = some v := by
  unfold parse_json_string
  rw [findFieldSuffix_append hsh (strFieldPat_at key _)]
  dsimp only
  rw [strFieldValueRegion_at key _]
  dsimp only
  rw [scanJsonValue_escStr]
  simp only [Option.map_some']
  rw [compressStr_escStr v hv]

/-- Chunk form of `shield_of_no34` with the region explicit, so membership
can be decided before the rest of the region is known. -/
theorem shield_no34_chunk (pm : Str → Bool)
    (hpm : ∀ c t, c ≠ 34 → pm (c :: t) = false) (A B : Str)
    (hA : ∀ c ∈ A, c ≠ 34) : Shield pm A B := shield_of_no34 hpm B hA

/-- The optional username field never hosts a match of the cookie pattern. -/
theorem shield_username_cookie (u : Option Str) (Z : Str) :
    Shield (strFieldPat [99, 111, 111, 107, 105, 101])
      (optJsonField (bytes ",\n  \"username\": \"") u) (44 :: Z) := by
  cases u with
  | none =>
    rw [show optJsonField (bytes ",\n  \"username\": \"") (none : Option Str) = [] from rfl]
    exact shield_nil _ _
  | some u1 =>
    rw [show optJsonField (bytes ",\n  \"username\": \"") (some u1)
        = bytes ",\n  \"username\": \"" ++ escStr u1 ++ [34] from rfl]
    rw [show bytes ",\n  \"username\": \""
        = [44, 10, 32, 32, 34, 117, 115, 101, 114, 110, 97, 109, 101, 34, 58, 32, 34] from by decide]
    have hre : (([44, 10, 32, 32, 34, 117, 115, 101, 114, 110, 97, 109, 101, 34, 58, 32, 34] : Str)
          ++ escStr u1 ++ [34])
        = [44, 10, 32, 32] ++ ([34] ++ ([117, 115, 101, 114, 110, 97, 109, 101]
          ++ ([34] ++ ([58, 32] ++ ([34] ++ (escStr u1 ++ [34])))))) := by
      simp
    rw [hre]
    refine shield_append (shield_no34_chunk _ (fun c t hc => strFieldPat_head t hc)
        [44, 10, 32, 32] _ (by decide))
      (shield_append (shield_single ?uq1)
        (shield_append (shield_no34_chunk _ (fun c t hc => strFieldPat_head t hc)
            [117, 115, 101, 114, 110, 97, 109, 101] _ (by decide))
          (shield_append (shield_single ?uq2)
            (shield_append (shield_no34_chunk _ (fun c t hc => strFieldPat_head t hc)
                [58, 32] _ (by decide))
              (shield_append (shield_single ?uq3)
                (shield_append ?uesc (shield_single ?uq4)))))))
    case uq1 =>
      simp only [List.cons_append, List.nil_append, List.append_assoc]
      exact strFieldPat_mism2 _ (by norm_num)
    case uq2 =>
      simp only [List.cons_append, List.nil_append, List.append_assoc]
      exact strFieldPat_mism2 _ (by norm_num)
    case uq3 =>
      simp only [List.cons_append, List.nil_append, List.append_assoc]
      exact quote_shield_str (QE_escStr u1) (by decide)
    case uesc =>
      simp only [List.cons_append, List.nil_append]
      exact shield_qe_str (QE_escStr u1) (by decide)
    case uq4 =>
      exact strFieldPat_mism2 _ (by norm_num)

/-- The created_at field of the serialized record parses back to the
serialized digit run, for any quote-free gateway and protocol. -/
theorem parse_created_shape (g p : Str) (d1 : Nat) (D1 W : Str)
    (hg : ∀ c ∈ g, c ≠ 34) (hp : ∀ c ∈ p, c ≠ 34)
    (hd1 : isDigitB d1 = true) (hD1 : ∀ c ∈ D1, isDigitB c = true) :
    parse_json_int64
      (([123, 10, 32, 32] ++ ([34] ++ ([103, 97, 116, 101, 119, 97, 121] ++ ([34] ++ ([58, 32] ++ ([34] ++ (g ++ ([34] ++ ([44, 10, 32, 32] ++ ([34] ++ ([112, 114, 111, 116, 111, 99, 111, 108] ++ ([34] ++ ([58, 32] ++ ([34] ++ (p ++ ([34] ++ ([44, 10, 32, 32])))))))))))))))))
        ++ 34 :: ([99, 114, 101, 97, 116, 101, 100, 95, 97, 116] ++ 34 :: 58 :: 32 :: d1 :: (D1 ++ 44 :: W)))
      [99, 114, 101, 97, 116, 101, 100, 95, 97, 116] = strtollDigits (d1 :: D1) := by
  refine parse_json_int64_at ?_ hd1 hD1
  refine shield_append (shield_no34_chunk _ (fun c t hc => intFieldPat_head t hc) [123, 10, 32, 32] _ (by decide))
      (shield_append (shield_single ?q1)
      (shield_append (shield_no34_chunk _ (fun c t hc => intFieldPat_head t hc) [103, 97, 116, 101, 119, 97, 121] _ (by decide))
      (shield_append (shield_single ?q2)
      (shield_append (shield_no34_chunk _ (fun c t hc => intFieldPat_head t hc) [58, 32] _ (by decide))
      (shield_append (shield_single ?q3)
      (shield_append (shield_no34_chunk _ (fun c t hc => intFieldPat_head t hc) g _ hg)
      (shield_append (shield_single ?q4)
      (shield_append (shield_no34_chunk _ (fun c t hc => intFieldPat_head t hc) [44, 10, 32, 32] _ (by decide))
      (shield_append (shield_single ?q5)
      (shield_append (shield_no34_chunk _ (fun c t hc => intFieldPat_head t hc) [112, 114, 111, 116, 111, 99, 111, 108] _ (by decide))
      (shield_append (shield_single ?q6)
      (shield_append (shield_no34_chunk _ (fun c t hc => intFieldPat_head t hc) [58, 32] _ (by decide))
      (shield_append (shield_single ?q7)
      (shield_append (shield_no34_chunk _ (fun c t hc => intFieldPat_head t hc) p _ hp)
      (shield_append (shield_single ?q8)
      (shield_no34_chunk _ (fun c t hc => intFieldPat_head t hc) [44, 10, 32, 32] _ (by decide)))))))))))))))))
  case q1 =>
    simp only [List.cons_append, List.nil_append, List.append_assoc]
    exact intFieldPat_mism2 _ (by norm_num)
  case q2 =>
    simp only [List.cons_append, List.nil_append, List.append_assoc]
    exact intFieldPat_mism2 _ (by norm_num)
  case q3 =>
    simp only [List.cons_append, List.nil_append, List.append_assoc]
    exact quote_shield_int (QE_of_no34 hg) (by decide)
  case q4 =>
    simp only [List.cons_append, List.nil_append, List.append_assoc]
    exact intFieldPat_mism2 _ (by norm_num)
  case q5 =>
    simp only [List.cons_append, List.nil_append, List.append_assoc]
    exact intFieldPat_mism2 _ (by norm_num)
  case q6 =>
    simp only [List.cons_append, List.nil_append, List.append_assoc]
    exact intFieldPat_mism2 _ (by norm_num)
  case q7 =>
    simp only [List.cons_append, List.nil_append, List.append_assoc]
    exact quote_shield_int (QE_of_no34 hp) (by decide)
  case q8 =>
    simp only [List.cons_append, List.nil_append, List.append_assoc]
    exact intFieldPat_mism2 _ (by norm_num)

/-- The expires_at field of the serialized record parses back to the
serialized digit run. -/
theorem parse_expires_shape (g p : Str) (d1 : Nat) (D1 : Str) (d2 : Nat) (D2 W : Str)
    (hg : ∀ c ∈ g, c ≠ 34) (hp : ∀ c ∈ p, c ≠ 34)
    (hd1 : isDigitB d1 = true) (hD1 : ∀ c ∈ D1, isDigitB c = true)
    (hd2 : isDigitB d2 = true) (hD2 : ∀ c ∈ D2, isDigitB c = true) :
    parse_json_int64
      (([123, 10, 32, 32] ++ ([34] ++ ([103, 97, 116, 101, 119, 97, 121] ++ ([34] ++ ([58, 32] ++ ([34] ++ (g ++ ([34] ++ ([44, 10, 32, 32] ++ ([34] ++ ([112, 114, 111, 116, 111, 99, 111, 108] ++ ([34] ++ ([58, 32] ++ ([34] ++ (p ++ ([34] ++ ([44, 10, 32, 32] ++ ([34] ++ ([99, 114, 101, 97, 116, 101, 100, 95, 97, 116] ++ ([34] ++ ([58, 32] ++ ((d1 :: D1) ++ [44, 10, 32, 32]))))))))))))))))))))))
        ++ 34 :: ([101, 120, 112, 105, 114, 101, 115, 95, 97, 116] ++ 34 :: 58 :: 32 :: d2 :: (D2 ++ 44 :: W)))
      [101, 120, 112, 105, 114, 101, 115, 95, 97, 116] = strtollDigits (d2 :: D2) := by
  have hD1ne : ∀ c ∈ d1 :: D1, c ≠ 34 := by
    intro c hc
    rcases List.mem_cons.mp hc with rfl | h
    · exact digit_ne34 hd1
    · exact digit_ne34 (hD1 c h)
  refine parse_json_int64_at ?_ hd2 hD2
  refine shield_append (shield_no34_chunk _ (fun c t hc => intFieldPat_head t hc) [123, 10, 32, 32] _ (by decide))
      (shield_append (shield_single ?q1)
      (shield_append (shield_no34_chunk _ (fun c t hc => intFieldPat_head t hc) [103, 97, 116, 101, 119, 97, 121] _ (by decide))
      (shield_append (shield_single ?q2)
      (shield_append (shield_no34_chunk _ (fun c t hc => intFieldPat_head t hc) [58, 32] _ (by decide))
      (shield_append (shield_single ?q3)
      (shield_append (shield_no34_chunk _ (fun c t hc => intFieldPat_head t hc) g _ hg)
      (shield_append (shield_single ?q4)
      (shield_append (shield_no34_chunk _ (fun c t hc => intFieldPat_head t hc) [44, 10, 32, 32] _ (by decide))
      (shield_append (shield_single ?q5)
      (shield_append (shield_no34_chunk _ (fun c t hc => intFieldPat_head t hc) [112, 114, 111, 116, 111, 99, 111, 108] _ (by decide))
      (shield_append (shield_single ?q6)
      (shield_append (shield_no34_chunk _ (fun c t hc => intFieldPat_head t hc) [58, 32] _ (by decide))
      (shield_append (shield_single ?q7)
      (shield_append (shield_no34_chunk _ (fun c t hc => intFieldPat_head t hc) p _ hp)
      (shield_append (shield_single ?q8)
      (shield_append (shield_no34_chunk _ (fun c t hc => intFieldPat_head t hc) [44, 10, 32, 32] _ (by decide))
      (shield_append (shield_single ?q9)
      (shield_append (shield_no34_chunk _ (fun c t hc => intFieldPat_head t hc) [99, 114, 101, 97, 116, 101, 100, 95, 97, 116] _ (by decide))
      (shield_append (shield_single ?q10)
      (shield_append (shield_no34_chunk _ (fun c t hc => intFieldPat_head t hc) [58, 32] _ (by decide))
      (shield_append (shield_no34_chunk _ (fun c t hc => intFieldPat_head t hc) (d1 :: D1) _ hD1ne)
      (shield_no34_chunk _ (fun c t hc => intFieldPat_head t hc) [44, 10, 32, 32] _ (by decide)))))))))))))))))))))))
  case q1 =>
    simp only [List.cons_append, List.nil_append, List.append_assoc]
    exact intFieldPat_mism2 _ (by norm_num)
  case q2 =>
    simp only [List.cons_append, List.nil_append, List.append_assoc]
    exact intFieldPat_mism2 _ (by norm_num)
  case q3 =>
    simp only [List.cons_append, List.nil_append, List.append_assoc]
    exact quote_shield_int (QE_of_no34 hg) (by decide)
  case q4 =>
    simp only [List.cons_append, List.nil_append, List.append_assoc]
    exact intFieldPat_mism2 _ (by norm_num)
  case q5 =>
    simp only [List.cons_append, List.nil_append, List.append_assoc]
    exact intFieldPat_mism2 _ (by norm_num)
  case q6 =>
    simp only [List.cons_append, List.nil_append, List.append_assoc]
    exact intFieldPat_mism2 _ (by norm_num)
  case q7 =>
    simp only [List.cons_append, List.nil_append, List.append_assoc]
    exact quote_shield_int (QE_of_no34 hp) (by decide)
  case q8 =>
    simp only [List.cons_append, List.nil_append, List.append_assoc]
    exact intFieldPat_mism2 _ (by norm_num)
  case q9 =>
    simp only [List.cons_append, List.nil_append, List.append_assoc]
    exact intFieldPat_mism2 _ (by norm_num)
  case q10 =>
    simp only [List.cons_append, List.nil_append, List.append_assoc]
    exact intFieldPat_mism2 _ (by norm_num)

/-- The cookie field of the serialized record parses back to the stored
token, for any quote-free gateway and protocol and any optional username. -/
theorem parse_cookie_shape (g p ck : Str) (u : Option Str) (d1 : Nat) (D1 : Str)
    (d2 : Nat) (D2 AFTER : Str)
    (hg : ∀ c ∈ g, c ≠ 34) (hp : ∀ c ∈ p, c ≠ 34) (hck : ∀ c ∈ ck, c < 256)
    (hd1 : isDigitB d1 = true) (hD1 : ∀ c ∈ D1, isDigitB c = true)
    (hd2 : isDigitB d2 = true) (hD2 : ∀ c ∈ D2, isDigitB c = true) :
    parse_json_string
      (([123, 10, 32, 32] ++ ([34] ++ ([103, 97, 116, 101, 119, 97, 121] ++ ([34] ++ ([58, 32] ++ ([34] ++ (g ++ ([34] ++ ([44, 10, 32, 32] ++ ([34] ++ ([112, 114, 111, 116, 111, 99, 111, 108] ++ ([34] ++ ([58, 32] ++ ([34] ++ (p ++ ([34] ++ ([44, 10, 32, 32] ++ ([34] ++ ([99, 114, 101, 97, 116, 101, 100, 95, 97, 116] ++ ([34] ++ ([58, 32] ++ ((d1 :: D1) ++ ([44, 10, 32, 32] ++ ([34] ++ ([101, 120, 112, 105, 114, 101, 115, 95, 97, 116] ++ ([34] ++ ([58, 32] ++ ((d2 :: D2) ++ (optJsonField (bytes ",\n  \"username\": \"") u ++ [44, 10, 32, 32])))))))))))))))))))))))))))))
        ++ 34 :: ([99, 111, 111, 107, 105, 101] ++ 34 :: 58 :: 32 :: 34 :: (escStr ck ++ 34 :: AFTER)))
      [99, 111, 111, 107, 105, 101] = some ck := by
  have hD1ne : ∀ c ∈ d1 :: D1, c ≠ 34 := by
    intro c hc
    rcases List.mem_cons.mp hc with rfl | h
    · exact digit_ne34 hd1
    · exact digit_ne34 (hD1 c h)
  have hD2ne : ∀ c ∈ d2 :: D2, c ≠ 34 := by
    intro c hc
    rcases List.mem_cons.mp hc with rfl | h
    · exact digit_ne34 hd2
    · exact digit_ne34 (hD2 c h)
  refine parse_json_string_at ?_ hck
  refine shield_append (shield_no34_chunk _ (fun c t hc => strFieldPat_head t hc) [123, 10, 32, 32] _ (by decide))
      (shield_append (shield_single ?q1)
      (shield_append (shield_no34_chunk _ (fun c t hc => strFieldPat_head t hc) [103, 97, 116, 101, 119, 97, 121] _ (by decide))
      (shield_append (shield_single ?q2)
      (shield_append (shield_no34_chunk _ (fun c t hc => strFieldPat_head t hc) [58, 32] _ (by decide))
      (shield_append (shield_single ?q3)
      (shield_append (shield_no34_chunk _ (fun c t hc => strFieldPat_head t hc) g _ hg)
      (shield_append (shield_single ?q4)
      (shield_append (shield_no34_chunk _ (fun c t hc => strFieldPat_head t hc) [44, 10, 32, 32] _ (by decide))
      (shield_append (shield_single ?q5)
      (shield_append (shield_no34_chunk _ (fun c t hc => strFieldPat_head t hc) [112, 114, 111, 116, 111, 99, 111, 108] _ (by decide))
      (shield_append (shield_single ?q6)
      (shield_append (shield_no34_chunk _ (fun c t hc => strFieldPat_head t hc) [58, 32] _ (by decide))
      (shield_append (shield_single ?q7)
      (shield_append (shield_no34_chunk _ (fun c t hc => strFieldPat_head t hc) p _ hp)
      (shield_append (shield_single ?q8)
      (shield_append (shield_no34_chunk _ (fun c t hc => strFieldPat_head t hc) [44, 10, 32, 32] _ (by decide))
      (shield_append (shield_single ?q9)
      (shield_append (shield_no34_chunk _ (fun c t hc => strFieldPat_head t hc) [99, 114, 101, 97, 116, 101, 100, 95, 97, 116] _ (by decide))
      (shield_append (shield_single ?q10)
      (shield_append (shield_no34_chunk _ (fun c t hc => strFieldPat_head t hc) [58, 32] _ (by decide))
      (shield_append (shield_no34_chunk _ (fun c t hc => strFieldPat_head t hc) (d1 :: D1) _ hD1ne)
      (shield_append (shield_no34_chunk _ (fun c t hc => strFieldPat_head t hc) [44, 10, 32, 32] _ (by decide))
      (shield_append (shield_single ?q11)
      (shield_append (shield_no34_chunk _ (fun c t hc => strFieldPat_head t hc) [101, 120, 112, 105, 114, 101, 115, 95, 97, 116] _ (by decide))
      (shield_append (shield_single ?q12)
      (shield_append (shield_no34_chunk _ (fun c t hc => strFieldPat_head t hc) [58, 32] _ (by decide))
      (shield_append (shield_no34_chunk _ (fun c t hc => strFieldPat_head t hc) (d2 :: D2) _ hD2ne)
      (shield_append (?ushield)
      (shield_no34_chunk _ (fun c t hc => strFieldPat_head t hc) [44, 10, 32, 32] _ (by decide))))))))))))))))))))))))))))))
  case q1 =>
    simp only [List.cons_append, List.nil_append, List.append_assoc]
    exact strFieldPat_mism2 _ (by norm_num)
  case q2 =>
    simp only [List.cons_append, List.nil_append, List.append_assoc]
    exact strFieldPat_mism2 _ (by norm_num)
  case q3 =>
    simp only [List.cons_append, List.nil_append, List.append_assoc]
    exact quote_shield_str (QE_of_no34 hg) (by decide)
  case q4 =>
    simp only [List.cons_append, List.nil_append, List.append_assoc]
    exact strFieldPat_mism2 _ (by norm_num)
  case q5 =>
    simp only [List.cons_append, List.nil_append, List.append_assoc]
    exact strFieldPat_mism2 _ (by norm_num)
  case q6 =>
    simp only [List.cons_append, List.nil_append, List.append_assoc]
    exact strFieldPat_mism2 _ (by norm_num)
  case q7 =>
    simp only [List.cons_append, List.nil_append, List.append_assoc]
    exact quote_shield_str (QE_of_no34 hp) (by decide)
  case q8 =>
    simp only [List.cons_append, List.nil_append, List.append_assoc]
    exact strFieldPat_mism2 _ (by norm_num)
  case q9 =>
    simp only [List.cons_append, List.nil_append, List.append_assoc]
    exact strFieldPat_mism3 _ (by norm_num)
  case q10 =>
    simp only [List.cons_append, List.nil_append, List.append_assoc]
    exact strFieldPat_mism2 _ (by norm_num)
  case q11 =>
    simp only [List.cons_append, List.nil_append, List.append_assoc]
    exact strFieldPat_mism2 _ (by norm_num)
  case q12 =>
    simp only [List.cons_append, List.nil_append, List.append_assoc]
    exact strFieldPat_mism2 _ (by norm_num)
  case ushield =>
    simp only [List.cons_append, List.nil_append, List.append_assoc]
    exact shield_username_cookie u _

/-- Parsing created_at out of a full serialized record gives the stored
creation time's digits. -/
theorem serialize_parse_created (g p ck : Str) (u fp ug : Option Str) (ca ea : Int)
    (hg : ∀ c ∈ g, c ≠ 34) (hp : ∀ c ∈ p, c ≠ 34) (hca0 : 0 ≤ ca) :
    parse_json_int64 (serialize_credential g p u (some ck) fp ug ca ea)
      [99, 114, 101, 97, 116, 101, 100, 95, 97, 116] = strtollDigits (natToDec ca.toNat) := by
  obtain ⟨d1, D1, hD1⟩ : ∃ d D, natToDec ca.toNat = d :: D := by
    rcases h : natToDec ca.toNat with _ | ⟨d, D⟩
    · exact absurd h (natToDec_ne_nil _)
    · exact ⟨d, D, rfl⟩
  have hd1 : isDigitB d1 = true :=
    natToDec_digits _ d1 (by rw [hD1]; exact List.mem_cons_self _ _)
  have hD1d : ∀ c ∈ D1, isDigitB c = true := fun c hc =>
    natToDec_digits _ c (by rw [hD1]; exact List.mem_cons_of_mem _ hc)
  have hdecomp : serialize_credential g p u (some ck) fp ug ca ea
      = ([123, 10, 32, 32] ++ ([34] ++ ([103, 97, 116, 101, 119, 97, 121] ++ ([34] ++ ([58, 32] ++ ([34] ++ (g ++ ([34] ++ ([44, 10, 32, 32] ++ ([34] ++ ([112, 114, 111, 116, 111, 99, 111, 108] ++ ([34] ++ ([58, 32] ++ ([34] ++ (p ++ ([34] ++ ([44, 10, 32, 32])))))))))))))))))
        ++ 34 :: ([99, 114, 101, 97, 116, 101, 100, 95, 97, 116] ++ 34 :: 58 :: 32 :: d1 :: (D1 ++ 44 :: ([10, 32, 32, 34] ++ ([101, 120, 112, 105, 114, 101, 115, 95, 97, 116] ++ ([34, 58, 32] ++ (intToDec ea ++ (optJsonField (bytes ",\n  \"username\": \"") u ++ (optJsonField (bytes ",\n  \"cookie\": \"") (some ck) ++ (optJsonField (bytes ",\n  \"fingerprint\": \"") fp ++ (optJsonField (bytes ",\n  \"usergroup\": \"") ug ++ bytes "\n\x7d")))))))))) := by
    unfold serialize_credential
    rw [show bytes "\x7b\n  \"gateway\": \"" = ([123, 10, 32, 32, 34, 103, 97, 116, 101, 119, 97, 121, 34, 58, 32, 34] : Str) from by decide,
      show bytes "\",\n  \"protocol\": \"" = ([34, 44, 10, 32, 32, 34, 112, 114, 111, 116, 111, 99, 111, 108, 34, 58, 32, 34] : Str) from by decide,
      show bytes "\",\n  \"created_at\": " = ([34, 44, 10, 32, 32, 34, 99, 114, 101, 97, 116, 101, 100, 95, 97, 116, 34, 58, 32] : Str) from by decide,
      show bytes ",\n  \"expires_at\": " = ([44, 10, 32, 32, 34, 101, 120, 112, 105, 114, 101, 115, 95, 97, 116, 34, 58, 32] : Str) from by decide,
      intToDec_nonneg hca0, hD1]
    simp only [List.cons_append, List.nil_append, List.append_assoc]
  rw [hdecomp, hD1]
  exact parse_created_shape g p d1 D1 _ hg hp hd1 hD1d

/-- Parsing expires_at out of a full serialized record gives the stored
expiry time's digits. -/
theorem serialize_parse_expires (g p ck : Str) (u fp ug : Option Str) (ca ea : Int)
    (hg : ∀ c ∈ g, c ≠ 34) (hp : ∀ c ∈ p, c ≠ 34) (hca0 : 0 ≤ ca) (hea0 : 0 ≤ ea) :
    parse_json_int64 (serialize_credential g p u (some ck) fp ug ca ea)
      [101, 120, 112, 105, 114, 101, 115, 95, 97, 116] = strtollDigits (natToDec ea.toNat) := by
  obtain ⟨d1, D1, hD1⟩ : ∃ d D, natToDec ca.toNat = d :: D := by
    rcases h : natToDec ca.toNat with _ | ⟨d, D⟩
    · exact absurd h (natToDec_ne_nil _)
    · exact ⟨d, D, rfl⟩
  have hd1 : isDigitB d1 = true :=
    natToDec_digits _ d1 (by rw [hD1]; exact List.mem_cons_self _ _)
  have hD1d : ∀ c ∈ D1, isDigitB c = true := fun c hc =>
    natToDec_digits _ c (by rw [hD1]; exact List.mem_cons_of_mem _ hc)
  obtain ⟨d2, D2, hD2⟩ : ∃ d D, natToDec ea.toNat = d :: D := by
    rcases h : natToDec ea.toNat with _ | ⟨d, D⟩
    · exact absurd h (natToDec_ne_nil _)
    · exact ⟨d, D, rfl⟩
  have hd2 : isDigitB d2 = true :=
    natToDec_digits _ d2 (by rw [hD2]; exact List.mem_cons_self _ _)
  have hD2d : ∀ c ∈ D2, isDigitB c = true := fun c hc =>
    natToDec_digits _ c (by rw [hD2]; exact List.mem_cons_of_mem _ hc)
  obtain ⟨w44, hw44⟩ : ∃ w, (optJsonField (bytes ",\n  \"username\": \"") u ++ (optJsonField (bytes ",\n  \"cookie\": \"") (some ck) ++ (optJsonField (bytes ",\n  \"fingerprint\": \"") fp ++ (optJsonField (bytes ",\n  \"usergroup\": \"") ug ++ bytes "\n\x7d")))) = 44 :: w := by
    cases u with
    | none =>
      exact ⟨_, by
        rw [show optJsonField (bytes ",\n  \"username\": \"") (none : Option Str) = [] from rfl,
          show optJsonField (bytes ",\n  \"cookie\": \"") (some ck) = bytes ",\n  \"cookie\": \"" ++ escStr ck ++ [34] from rfl,
          show bytes ",\n  \"cookie\": \"" = (44 :: ([10, 32, 32, 34, 99, 111, 111, 107, 105, 101, 34, 58, 32, 34] : Str)) from by decide]
        rfl⟩
    | some u1 =>
      exact ⟨_, by
        rw [show optJsonField (bytes ",\n  \"username\": \"") (some u1)
            = bytes ",\n  \"username\": \"" ++ escStr u1 ++ [34] from rfl,
          show bytes ",\n  \"username\": \""
            = (44 :: ([10, 32, 32, 34, 117, 115, 101, 114, 110, 97, 109, 101, 34, 58, 32, 34] : Str)) from by decide]
        rfl⟩
  have hdecomp : serialize_credential g p u (some ck) fp ug ca ea
      = ([123, 10, 32, 32] ++ ([34] ++ ([103, 97, 116, 101, 119, 97, 121] ++ ([34] ++ ([58, 32] ++ ([34] ++ (g ++ ([34] ++ ([44, 10, 32, 32] ++ ([34] ++ ([112, 114, 111, 116, 111, 99, 111, 108] ++ ([34] ++ ([58, 32] ++ ([34] ++ (p ++ ([34] ++ ([44, 10, 32, 32] ++ ([34] ++ ([99, 114, 101, 97, 116, 101, 100, 95, 97, 116] ++ ([34] ++ ([58, 32] ++ ((d1 :: D1) ++ [44, 10, 32, 32]))))))))))))))))))))))
        ++ 34 :: ([101, 120, 112, 105, 114, 101, 115, 95, 97, 116] ++ 34 :: 58 :: 32 :: d2 :: (D2 ++ 44 :: w44)) := by
    unfold serialize_credential
    rw [show bytes "\x7b\n  \"gateway\": \"" = ([123, 10, 32, 32, 34, 103, 97, 116, 101, 119, 97, 121, 34, 58, 32, 34] : Str) from by decide,
      show bytes "\",\n  \"protocol\": \"" = ([34, 44, 10, 32, 32, 34, 112, 114, 111, 116, 111, 99, 111, 108, 34, 58, 32, 34] : Str) from by decide,
      show bytes "\",\n  \"created_at\": " = ([34, 44, 10, 32, 32, 34, 99, 114, 101, 97, 116, 101, 100, 95, 97, 116, 34, 58, 32] : Str) from by decide,
      show bytes ",\n  \"expires_at\": " = ([44, 10, 32, 32, 34, 101, 120, 112, 105, 114, 101, 115, 95, 97, 116, 34, 58, 32] : Str) from by decide,
      intToDec_nonneg hca0, hD1, intToDec_nonneg hea0, hD2]
    simp only [List.cons_append, List.nil_append, List.append_assoc]
    rw [hw44]
  rw [hdecomp, hD2]
  exact parse_expires_shape g p d1 D1 d2 D2 _ hg hp hd1 hD1d hd2 hD2d

/-- Parsing the cookie out of a full serialized record gives back exactly the
token that was stored. -/
theorem serialize_parse_cookie (g p ck : Str) (u fp ug : Option Str) (ca ea : Int)
    (hg : ∀ c ∈ g, c ≠ 34) (hp : ∀ c ∈ p, c ≠ 34) (hck : ∀ c ∈ ck, c < 256)
    (hca0 : 0 ≤ ca) (hea0 : 0 ≤ ea) :
    parse_json_string (serialize_credential g p u (some ck) fp ug ca ea)
      [99, 111, 111, 107, 105, 101] = some ck := by
  obtain ⟨d1, D1, hD1⟩ : ∃ d D, natToDec ca.toNat = d :: D := by
    rcases h : natToDec ca.toNat with _ | ⟨d, D⟩
    · exact absurd h (natToDec_ne_nil _)
    · exact ⟨d, D, rfl⟩
  have hd1 : isDigitB d1 = true :=
    natToDec_digits _ d1 (by rw [hD1]; exact List.mem_cons_self _ _)
  have hD1d : ∀ c ∈ D1, isDigitB c = true := fun c hc =>
    natToDec_digits _ c (by rw [hD1]; exact List.mem_cons_of_mem _ hc)
  obtain ⟨d2, D2, hD2⟩ : ∃ d D, natToDec ea.toNat = d :: D := by
    rcases h : natToDec ea.toNat with _ | ⟨d, D⟩
    · exact absurd h (natToDec_ne_nil _)
    · exact ⟨d, D, rfl⟩
  have hd2 : isDigitB d2 = true :=
    natToDec_digits _ d2 (by rw [hD2]; exact List.mem_cons_self _ _)
  have hD2d : ∀ c ∈ D2, isDigitB c = true := fun c hc =>
    natToDec_digits _ c (by rw [hD2]; exact List.mem_cons_of_mem _ hc)
  have hdecomp : serialize_credential g p u (some ck) fp ug ca ea
      = ([123, 10, 32, 32] ++ ([34] ++ ([103, 97, 116, 101, 119, 97, 121] ++ ([34] ++ ([58, 32] ++ ([34] ++ (g ++ ([34] ++ ([44, 10, 32, 32] ++ ([34] ++ ([112, 114, 111, 116, 111, 99, 111, 108] ++ ([34] ++ ([58, 32] ++ ([34] ++ (p ++ ([34] ++ ([44, 10, 32, 32] ++ ([34] ++ ([99, 114, 101, 97, 116, 101, 100, 95, 97, 116] ++ ([34] ++ ([58, 32] ++ ((d1 :: D1) ++ ([44, 10, 32, 32] ++ ([34] ++ ([101, 120, 112, 105, 114, 101, 115, 95, 97, 116] ++ ([34] ++ ([58, 32] ++ ((d2 :: D2) ++ (optJsonField (bytes ",\n  \"username\": \"") u ++ [44, 10, 32, 32])))))))))))))))))))))))))))))
        ++ 34 :: ([99, 111, 111, 107, 105, 101] ++ 34 :: 58 :: 32 :: 34 :: (escStr ck ++ 34 :: (optJsonField (bytes ",\n  \"fingerprint\": \"") fp ++ (optJsonField (bytes ",\n  \"usergroup\": \"") ug ++ bytes "\n\x7d")))) := by
    unfold serialize_credential
    rw [show bytes "\x7b\n  \"gateway\": \"" = ([123, 10, 32, 32, 34, 103, 97, 116, 101, 119, 97, 121, 34, 58, 32, 34] : Str) from by decide,
      show bytes "\",\n  \"protocol\": \"" = ([34, 44, 10, 32, 32, 34, 112, 114, 111, 116, 111, 99, 111, 108, 34, 58, 32, 34] : Str) from by decide,
      show bytes "\",\n  \"created_at\": " = ([34, 44, 10, 32, 32, 34, 99, 114, 101, 97, 116, 101, 100, 95, 97, 116, 34, 58, 32] : Str) from by decide,
      show bytes ",\n  \"expires_at\": " = ([44, 10, 32, 32, 34, 101, 120, 112, 105, 114, 101, 115, 95, 97, 116, 34, 58, 32] : Str) from by decide,
      show optJsonField (bytes ",\n  \"cookie\": \"") (some ck) = bytes ",\n  \"cookie\": \"" ++ escStr ck ++ [34] from rfl,
      show bytes ",\n  \"cookie\": \"" = (44 :: ([10, 32, 32, 34, 99, 111, 111, 107, 105, 101, 34, 58, 32, 34] : Str)) from by decide,
      intToDec_nonneg hca0, hD1, intToDec_nonneg hea0, hD2]
    simp only [List.cons_append, List.nil_append, List.append_assoc]
  rw [hdecomp]
  exact parse_cookie_shape g p ck u d1 D1 d2 D2 _ hg hp hck hd1 hD1d hd2 hD2d

/-- **C4 (counterexample).** The claim promises the looked-up cookie equals
the stored token for every gateway/protocol pair.  A gateway containing
`", "cookie": "evil` is interpolated raw by the serializer (credential-cache.c
line 946 uses %s with no escaping), creating a forged cookie field that the
leftmost-match parser finds first: the lookup after storing token `realtoken`
returns cookie `evil`. -/
theorem c4_counterexample_gateway_injection :
    lookupResultCookie
        (vpn_sso_credential_cache_lookup injectionStore injectionGateway protoGP 1000).1
      = some (some (bytes "evil")) ∧
    bytes "evil" ≠ bytes "realtoken" := by
  constructor
  · decide
  · decide

/-- **C4.** For every gateway and protocol free of double-quote bytes, every
byte-valued token, every positive ttl and nonnegative wall clock with the
expiry in `gint64` range, a lookup immediately after a store returns an entry
whose cookie is exactly the stored token and whose expires_at minus
created_at is exactly ttlHours * 3600 (the file backend samples the clock
once, so the difference is exact, not merely within one second). -/
theorem c4_store_then_lookup_roundtrip
    (st : FileStore) (g p ck : Str) (u fp ug : Option Str) (ttl now : Int)
    (hg : ∀ c ∈ g, c ≠ 34) (hp : ∀ c ∈ p, c ≠ 34)
    (hck : ∀ c ∈ ck, c < 256)
    (httl : 0 < ttl) (hnow : 0 ≤ now)
    (hbound : now + ttl * 3600 ≤ 2 ^ 63 - 1) :
    ∃ cred : VpnSsoCachedCredential,
      (vpn_sso_credential_cache_lookup
          (vpn_sso_credential_cache_store st g p u (some ck) fp ug ttl now)
          g p now).1 = .ok (some cred) ∧
        cred.cookie = some ck ∧
        cred.expires_at - cred.created_at = ttl * 3600 := by
  have hea0 : 0 ≤ now + ttl * 3600 := by omega
  have h63 : ((2 : Int) ^ 63 - 1) = 9223372036854775807 := by norm_num
  rw [h63] at hbound
  have hside1 : ((now.toNat : Int)) ≤ 2 ^ 63 - 1 := by
    rw [Int.toNat_of_nonneg hnow, h63]; omega
  have hside2 : (((now + ttl * 3600).toNat : Int)) ≤ 2 ^ 63 - 1 := by
    rw [Int.toNat_of_nonneg hea0, h63]; omega
  have hcaI : strtollDigits (natToDec now.toNat) = now := by
    rw [strtollDigits_natToDec hside1, Int.toNat_of_nonneg hnow]
  have heaI : strtollDigits (natToDec (now + ttl * 3600).toNat) = now + ttl * 3600 := by
    rw [strtollDigits_natToDec hside2, Int.toNat_of_nonneg hea0]
  have hcookie := serialize_parse_cookie g p ck u fp ug now (now + ttl * 3600)
    hg hp hck hnow hea0
  have hcreated := serialize_parse_created g p ck u fp ug now (now + ttl * 3600) hg hp hnow
  have hexpires := serialize_parse_expires g p ck u fp ug now (now + ttl * 3600)
    hg hp hnow hea0
  rw [hcaI] at hcreated
  rw [heaI] at hexpires
  have hst : (vpn_sso_credential_cache_store st g p u (some ck) fp ug ttl now) (cacheKey g p)
      = some (serialize_credential g p u (some ck) fp ug now (now + ttl * 3600)) := by
    unfold vpn_sso_credential_cache_store
    rw [if_pos rfl, if_neg (by omega)]
  have hJne : ¬(serialize_credential g p u (some ck) fp ug now (now + ttl * 3600) = []) := by
    intro hcontra
    unfold serialize_credential at hcontra
    rw [show bytes "\x7b\n  \"gateway\": \""
        = (123 :: ([10, 32, 32, 34, 103, 97, 116, 101, 119, 97, 121, 34, 58, 32, 34] : Str))
        from by decide] at hcontra
    simp at hcontra
  have hdes : deserialize_credential
        (serialize_credential g p u (some ck) fp ug now (now + ttl * 3600))
      = some
        { gateway := parse_json_string
            (serialize_credential g p u (some ck) fp ug now (now + ttl * 3600)) (bytes "gateway")
          protocol := parse_json_string
            (serialize_credential g p u (some ck) fp ug now (now + ttl * 3600)) (bytes "protocol")
          username := parse_json_string
            (serialize_credential g p u (some ck) fp ug now (now + ttl * 3600)) (bytes "username")
          cookie := some ck
          fingerprint := parse_json_string
            (serialize_credential g p u (some ck) fp ug now (now + ttl * 3600)) (bytes "fingerprint")
          usergroup := parse_json_string
            (serialize_credential g p u (some ck) fp ug now (now + ttl * 3600)) (bytes "usergroup")
          created_at := now
          expires_at := now + ttl * 3600 } := by
    unfold deserialize_credential
    rw [if_neg hJne]
    rw [show bytes "cookie" = ([99, 111, 111, 107, 105, 101] : Str) from by decide,
      show bytes "created_at"
        = ([99, 114, 101, 97, 116, 101, 100, 95, 97, 116] : Str) from by decide,
      show bytes "expires_at"
        = ([101, 120, 112, 105, 114, 101, 115, 95, 97, 116] : Str) from by decide,
      hcookie, hcreated, hexpires]
  refine ⟨{ gateway := parse_json_string
                 (serialize_credential g p u (some ck) fp ug now (now + ttl * 3600))
                 (bytes "gateway")
            protocol := parse_json_string
                 (serialize_credential g p u (some ck) fp ug now (now + ttl * 3600))
                 (bytes "protocol")
            username := parse_json_string
                 (serialize_credential g p u (some ck) fp ug now (now + ttl * 3600))
                 (bytes "username")
            cookie := some ck
            fingerprint := parse_json_string
                 (serialize_credential g p u (some ck) fp ug now (now + ttl * 3600))
                 (bytes "fingerprint")
            usergroup := parse_json_string
                 (serialize_credential g p u (some ck) fp ug now (now + ttl * 3600))
                 (bytes "usergroup")
            created_at := now
            expires_at := now + ttl * 3600 }, ?_, rfl, by ring⟩
  unfold vpn_sso_credential_cache_lookup
  rw [hst]
  dsimp only
  rw [hdes]
  dsimp only
  rw [if_neg (by rintro ⟨-, hcon⟩; omega)]

/-- C4 witness: a concrete clean gateway/protocol pair, token `tok`, one hour
of ttl, stored at second 1000 into the empty store and looked up at the same
second. -/
theorem c4_witness :
    ∃ cred : VpnSsoCachedCredential,
      (vpn_sso_credential_cache_lookup
          (vpn_sso_credential_cache_store emptyStore (bytes "vpn.example.com") protoGP
            none (some (bytes "tok")) none none 1 1000)
          (bytes "vpn.example.com") protoGP 1000).1 = .ok (some cred) ∧
        cred.cookie = some (bytes "tok") ∧
        cred.expires_at - cred.created_at = 1 * 3600 :=
  c4_store_then_lookup_roundtrip emptyStore (bytes "vpn.example.com") protoGP (bytes "tok")
    none none none 1 1000 (by decide) (by decide) (by decide) (by decide) (by decide)
    (by decide)

end VpnSso
